import Mathlib

/-!
Verification of the Seva-app-backend attendance and roster-import core.

The Go handlers are shallowly embedded: the relational store is a record of
lists, each SQL statement becomes a pure function on that record, and each
handler becomes a function from request data and store state to a result and
a new state. Machine integers are modelled as Int, timestamps as epoch
seconds (Int), calendar days as floored day numbers.
-/

namespace Seva

/-! ## String helpers (strings.TrimSpace, strings.ToLower, ILIKE) -/

/-- Model of strings.ToLower restricted to the ASCII range, as a plain
structural function on the underlying character list. -/
def toLowerStr (s : String) : String := String.mk (s.data.map Char.toLower)

def isSpaceChar (c : Char) : Bool := c == ' ' || c == '\t' || c == '\n' || c == '\r'

/-- Model of strings.TrimSpace. -/
def trimSpace (s : String) : String :=
  String.mk (((s.data.dropWhile isSpaceChar).reverse.dropWhile isSpaceChar).reverse)

/-- Containment of one character list in another, used to model SQL
LIKE with a pattern of the shape percent-needle-percent. -/
def containsSub (n : List Char) : List Char → Bool
  | [] => n.isPrefixOf []
  | c :: t => n.isPrefixOf (c :: t) || containsSub n t

/-- Model of the SQL condition haystack ILIKE percent-needle-percent:
case-insensitive substring containment. -/
def containsCI (haystack needle : String) : Bool :=
  containsSub (needle.data.map Char.toLower) (haystack.data.map Char.toLower)

/-! ## Calendar arithmetic and timestamp parsing

Timestamps are epoch seconds (Int); the SQL DATE() bucketing is the floored
day number. Parsing mirrors the layouts the Go code uses with time.Parse:
the date-only layout 2006-01-02 and the RFC3339 layout. -/

def d2i (c : Char) : Int := Int.ofNat c.toNat - 48

def isLeap (y : Int) : Bool := y % 4 == 0 && (y % 100 != 0 || y % 400 == 0)

def daysInMonth (y m : Int) : Int :=
  if m == 2 then (if isLeap y then 29 else 28)
  else if m == 4 || m == 6 || m == 9 || m == 11 then 30
  else 31

/-- Days since the Unix epoch for a civil date (standard civil-from-days
inverse formula). -/
def daysFromCivil (y m d : Int) : Int :=
  let yy := if m ≤ 2 then y - 1 else y
  let era := yy.fdiv 400
  let yoe := yy - era * 400
  let mp := (m + 9) % 12
  let doy := (153 * mp + 2).fdiv 5 + d - 1
  let doe := yoe * 365 + yoe.fdiv 4 - yoe.fdiv 100 + doy
  era * 146097 + doe - 719468

def validDate (y m d : Int) : Bool :=
  1 ≤ m && m ≤ 12 && 1 ≤ d && d ≤ daysInMonth y m

/-- Model of time.Parse with layout 2006-01-02; returns the day number. -/
def parseDate (s : String) : Option Int :=
  match s.data with
  | [y1, y2, y3, y4, s1, m1, m2, s2, d1, d2] =>
    if y1.isDigit && y2.isDigit && y3.isDigit && y4.isDigit && s1 == '-' &&
       m1.isDigit && m2.isDigit && s2 == '-' && d1.isDigit && d2.isDigit then
      let y := 1000 * d2i y1 + 100 * d2i y2 + 10 * d2i y3 + d2i y4
      let mo := 10 * d2i m1 + d2i m2
      let da := 10 * d2i d1 + d2i d2
      if validDate y mo da then some (daysFromCivil y mo da) else none
    else none
  | _ => none

def dropDigits : List Char → List Char := List.dropWhile Char.isDigit

/-- Trailing timezone part of an RFC3339 timestamp: Z or a signed offset. -/
def parseZone : List Char → Option Int
  | ['Z'] => some 0
  | [sg, a1, a2, cl, b1, b2] =>
    if (sg == '+' || sg == '-') && a1.isDigit && a2.isDigit && cl == ':' &&
       b1.isDigit && b2.isDigit then
      let hh := 10 * d2i a1 + d2i a2
      let mm := 10 * d2i b1 + d2i b2
      if hh ≤ 23 && mm ≤ 59 then
        let off := hh * 3600 + mm * 60
        some (if sg == '-' then -off else off)
      else none
    else none
  | _ => none

/-- Optional fractional seconds, then the timezone part. -/
def parseAfterSeconds : List Char → Option Int
  | '.' :: c :: rest => if c.isDigit then parseZone (dropDigits rest) else none
  | rest => parseZone rest

/-- Model of time.Parse with the RFC3339 layout; returns epoch seconds. -/
def parseRFC3339 (s : String) : Option Int :=
  match s.data with
  | y1 :: y2 :: y3 :: y4 :: s1 :: m1 :: m2 :: s2 :: d1 :: d2 :: tt :: h1 :: h2 ::
      c1 :: n1 :: n2 :: c2 :: e1 :: e2 :: rest =>
    if y1.isDigit && y2.isDigit && y3.isDigit && y4.isDigit && s1 == '-' &&
       m1.isDigit && m2.isDigit && s2 == '-' && d1.isDigit && d2.isDigit &&
       tt == 'T' && h1.isDigit && h2.isDigit && c1 == ':' && n1.isDigit &&
       n2.isDigit && c2 == ':' && e1.isDigit && e2.isDigit then
      let y := 1000 * d2i y1 + 100 * d2i y2 + 10 * d2i y3 + d2i y4
      let mo := 10 * d2i m1 + d2i m2
      let da := 10 * d2i d1 + d2i d2
      let hh := 10 * d2i h1 + d2i h2
      let mi := 10 * d2i n1 + d2i n2
      let ss := 10 * d2i e1 + d2i e2
      if validDate y mo da && hh ≤ 23 && mi ≤ 59 && ss ≤ 59 then
        match parseAfterSeconds rest with
        | some off => some (daysFromCivil y mo da * 86400 + hh * 3600 + mi * 60 + ss - off)
        | none => none
      else none
    else none
  | _ => none

/-- SQL DATE() of an epoch-second timestamp: the floored day number. -/
def dayOf (t : Int) : Int := t.fdiv 86400

/-- Model of time.Now().Truncate(24 * time.Hour). -/
def truncDay (t : Int) : Int := dayOf t * 86400

/-- Model of strconv.ParseInt base 10. -/
def natOfDigits (ds : List Char) : Int := ds.foldl (fun a c => 10 * a + d2i c) 0

def parseInt (s : String) : Option Int :=
  match s.data with
  | [] => none
  | '-' :: ds => if !ds.isEmpty && ds.all Char.isDigit then some (-(natOfDigits ds)) else none
  | '+' :: ds => if !ds.isEmpty && ds.all Char.isDigit then some (natOfDigits ds) else none
  | ds => if ds.all Char.isDigit then some (natOfDigits ds) else none

/-! ## Data model (db/migrations/init.mg.up.sql, models.go) -/

structure Volunteer where
  vid : Int
  name : String
  email : Option String
  phone : Option String
  dept : Option String
  collegeId : Option String
  deriving DecidableEq, Repr

structure Faculty where
  fid : Int
  name : String
  email : Option String
  deriving DecidableEq, Repr

structure Assignment where
  aid : Int
  eventId : Int
  committeeId : Int
  volunteerId : Int
  role : String
  status : String
  reportingTime : Option Int
  shift : Option String
  startTime : Option Int
  endTime : Option Int
  notes : Option String
  deriving DecidableEq, Repr

structure AttendanceRow where
  attId : Int
  assignmentId : Int
  checkInTime : Int
  checkOutTime : Option Int
  lat : Option Int
  lng : Option Int
  deriving DecidableEq, Repr

structure Committee where
  cid : Int
  name : String
  deriving DecidableEq, Repr

structure Event where
  eid : Int
  name : String
  deriving DecidableEq, Repr

structure DB where
  events : List Event
  committees : List Committee
  volunteers : List Volunteer
  faculty : List Faculty
  assignments : List Assignment
  attendance : List AttendanceRow
  nextVolId : Int
  nextAssignId : Int
  nextAttId : Int
  deriving DecidableEq, Repr

/-! ## Attendance state machine (handlers/attendance/attendance.go, CheckIn / CheckOut)

Each SQL statement of the Go handler is one atomic primitive below. CheckIn
issues its duplicate check and its insert as two separate pool operations
with no enclosing transaction, so the concurrent semantics is modelled as an
interleaving of those primitives; the read-only statements of one request
are bundled into a single read phase since reads do not mutate the store. -/

structure CheckInRequest where
  assignmentId : Int
  lat : Option Int
  lng : Option Int
  timeISO : Option String
  deriving DecidableEq, Repr

structure CheckOutRequest where
  attendanceId : Int
  timeISO : Option String
  deriving DecidableEq, Repr

/-- Timestamp resolution shared by CheckIn and CheckOut: absent or empty
time defaults to now, otherwise the RFC3339 parse must succeed. -/
def resolveTime (now : Int) (timeISO : Option String) : Option Int :=
  match timeISO with
  | some s => if s = "" then some now else parseRFC3339 s
  | none => some now

/-- SELECT EXISTS(SELECT 1 FROM volunteer_assignments WHERE id = dollar1). -/
def assignmentExists (db : DB) (aid : Int) : Bool :=
  db.assignments.any (fun a => a.aid == aid)

/-- SELECT id FROM attendance WHERE assignment_id = dollar1 AND check_out_time
IS NULL AND DATE(check_in_time) = DATE(dollar2). -/
def findOpenAttendanceOnDay (db : DB) (aid : Int) (ts : Int) : Option AttendanceRow :=
  db.attendance.find? (fun a =>
    a.assignmentId == aid && a.checkOutTime.isNone && dayOf a.checkInTime == dayOf ts)

/-- INSERT INTO attendance(assignment_id, check_in_time, lat, lng) RETURNING id. -/
def insertAttendance (db : DB) (aid : Int) (ts : Int) (lat lng : Option Int) : Int × DB :=
  let newId := db.nextAttId
  (newId,
   { db with
     attendance := db.attendance ++ [⟨newId, aid, ts, none, lat, lng⟩]
     nextAttId := newId + 1 })

inductive CheckInResult where
  | badRequest (msg : String)
  | conflict (msg : String)
  | created (attendanceId : Int)
  deriving DecidableEq, Repr

/-- Phase of one in-flight check-in request: not started, passed the
duplicate check with the resolved timestamp, or finished with a result. -/
inductive CheckInPhase where
  | start
  | readDone (ts : Int)
  | finished (res : CheckInResult)
  deriving DecidableEq, Repr

/-- One atomic step of the CheckIn handler against the shared store: the
read phase (validation, assignment existence, duplicate check) or the
insert phase. -/
def stepCheckIn (db : DB) (now : Int) (b : CheckInRequest) :
    CheckInPhase → DB × CheckInPhase
  | .start =>
    if b.assignmentId ≤ 0 then
      (db, .finished (.badRequest "assignment_id is required"))
    else
      match resolveTime now b.timeISO with
      | none => (db, .finished (.badRequest "Bad time (RFC3339)"))
      | some ts =>
        if !assignmentExists db b.assignmentId then
          (db, .finished (.badRequest "Invalid assignment_id"))
        else
          match findOpenAttendanceOnDay db b.assignmentId ts with
          | some _ =>
            (db, .finished (.conflict "Already checked in for this assignment and not checked out."))
          | none => (db, .readDone ts)
  | .readDone ts =>
    let (i, db2) := insertAttendance db b.assignmentId ts b.lat b.lng
    (db2, .finished (.created i))
  | .finished r => (db, .finished r)

/-- Sequential semantics of the CheckIn handler: the two phases run with no
interleaved writer. -/
def CheckIn (db : DB) (now : Int) (b : CheckInRequest) : CheckInResult × DB :=
  match stepCheckIn db now b .start with
  | (db1, .finished r) => (r, db1)
  | (db1, p1) =>
    match stepCheckIn db1 now b p1 with
    | (db2, .finished r) => (r, db2)
    | (db2, _) => (.badRequest "unreachable", db2)

/-- Shared-store state of two concurrent check-in requests. -/
structure RaceState where
  db : DB
  p1 : CheckInPhase
  p2 : CheckInPhase
  deriving DecidableEq, Repr

/-- Scheduler step: false runs one atomic step of request 1, true of
request 2. -/
def raceStep (now : Int) (b1 b2 : CheckInRequest) (st : RaceState) (who : Bool) :
    RaceState :=
  if who then
    let (db2, p2) := stepCheckIn st.db now b2 st.p2
    ⟨db2, st.p1, p2⟩
  else
    let (db2, p1) := stepCheckIn st.db now b1 st.p1
    ⟨db2, p1, st.p2⟩

/-- Run two concurrent check-ins under a given interleaving of their atomic
pool operations. -/
def runRace (db : DB) (now : Int) (b1 b2 : CheckInRequest) (sched : List Bool) :
    RaceState :=
  sched.foldl (raceStep now b1 b2) ⟨db, .start, .start⟩

/-- Number of open attendance rows of one assignment on one day. -/
def openSameDayCount (db : DB) (aid : Int) (d : Int) : Nat :=
  (db.attendance.filter (fun a =>
    a.assignmentId == aid && a.checkOutTime.isNone && dayOf a.checkInTime == d)).length

/-- The core consistency rule of the attendance subsystem. -/
def AtMostOneOpenPerDay (db : DB) : Prop :=
  ∀ aid d, openSameDayCount db aid d ≤ 1

/-! ## CheckOut (handlers/attendance/attendance.go lines 102-155) -/

inductive CheckOutResult where
  | badRequest (msg : String)
  | conflict (msg : String)
  | notFound (msg : String)
  | noContent
  deriving DecidableEq, Repr

/-- Model of the CheckOut handler. The active-existence check, the
fallback read of check_out_time, and the conditional UPDATE each mirror one
SQL statement of the Go code. -/
def CheckOut (db : DB) (now : Int) (b : CheckOutRequest) : CheckOutResult × DB :=
  if b.attendanceId ≤ 0 then (.badRequest "attendance_id is required", db)
  else
    match resolveTime now b.timeISO with
    | none => (.badRequest "Bad time (RFC3339)", db)
    | some ts =>
      let activeExists :=
        db.attendance.any (fun a => a.attId == b.attendanceId && a.checkOutTime.isNone)
      if !activeExists then
        let co : Option Int :=
          match db.attendance.find? (fun a => a.attId == b.attendanceId) with
          | some a => a.checkOutTime
          | none => none
        match co with
        | some _ => (.conflict "Already checked out", db)
        | none => (.notFound "Active attendance record not found", db)
      else
        let affected :=
          (db.attendance.filter (fun a =>
            a.attId == b.attendanceId && a.checkOutTime.isNone)).length
        let db2 :=
          { db with
            attendance := db.attendance.map (fun a =>
              if a.attId == b.attendanceId && a.checkOutTime.isNone then
                { a with checkOutTime := some ts }
              else a) }
        if affected == 0 then
          (.notFound "Attendance not found or already checked out", db2)
        else (.noContent, db2)

/-! ## Shared list lemmas -/

theorem find?_map_pred {α : Type} (u : α → α) (p : α → Bool)
    (hp : ∀ x, p (u x) = p x) (l : List α) :
    (l.map u).find? p = (l.find? p).map u := by
  induction l with
  | nil => rfl
  | cons x t ih =>
    simp only [List.map_cons, List.find?]
    rw [hp x]
    cases hpx : p x <;> simp [hpx, ih]

theorem map_eq_self_of_fix {α : Type} (u : α → α) (l : List α)
    (h : ∀ x ∈ l, u x = x) : l.map u = l := by
  induction l with
  | nil => rfl
  | cons x t ih =>
    simp only [List.map_cons]
    rw [h x (by simp), ih (fun y hy => h y (by simp [hy]))]

theorem find?_append_left {α : Type} (p : α → Bool) (l1 l2 : List α) (a : α)
    (h : l1.find? p = some a) : (l1 ++ l2).find? p = some a := by
  induction l1 with
  | nil => simp [List.find?] at h
  | cons x t ih =>
    simp only [List.cons_append, List.find?] at h ⊢
    cases hpx : p x <;> simp [hpx] at h ⊢ <;> simp_all

/-! ## Claim C1: at-most-one-open-per-day under concurrent check-ins

The Go handler runs the duplicate check (a SELECT on the pool) and the
insert as separate statements with no transaction, and the schema in
db/migrations/init.mg.up.sql declares no uniqueness constraint on
attendance beyond the primary key. The interleaving below makes both
concurrent check-ins pass the duplicate check before either inserts. -/

def raceDB : DB :=
  { events := [⟨1, "E"⟩]
    committees := [⟨1, "C"⟩]
    volunteers := [⟨1, "V", none, none, none, none⟩]
    faculty := []
    assignments := [⟨1, 1, 1, 1, "volunteer", "assigned", none, none, none, none, none⟩]
    attendance := []
    nextVolId := 2
    nextAssignId := 2
    nextAttId := 1 }

def c1Req : CheckInRequest := ⟨1, none, none, none⟩

/-- Final state of two concurrent check-ins for assignment 1 where both
duplicate checks run before either insert. -/
def c1Final : RaceState := runRace raceDB 1000 c1Req c1Req [false, true, false, true]

/-- C1: the claim states that the duplicate check performed at insert time
guarantees at most one of two concurrent same-day check-ins creates an open
attendance row, the loser receiving a conflict. The code performs the check
and the insert as two separate pool statements with no transaction and no
store constraint, so the interleaving check1-check2-insert1-insert2 lets
both requests succeed and leaves two open attendance rows for assignment 1
on the same day, violating the invariant the claim asserts. -/
theorem checkin_race_two_open_rows :
    c1Final.p1 = .finished (.created 1) ∧
    c1Final.p2 = .finished (.created 2) ∧
    openSameDayCount c1Final.db 1 (dayOf 1000) = 2 ∧
    ¬ AtMostOneOpenPerDay c1Final.db := by
  refine ⟨by decide, by decide, by decide, fun h => ?_⟩
  have h2 := h 1 (dayOf 1000)
  have h3 : openSameDayCount c1Final.db 1 (dayOf 1000) = 2 := by decide
  omega

/-! ## Claim C2: check-out exactly once, then conflict, never not-found -/

/-- Closing map applied by the UPDATE of CheckOut. -/
def closeUpd (i ts : Int) (a : AttendanceRow) : AttendanceRow :=
  if a.attId == i && a.checkOutTime.isNone then { a with checkOutTime := some ts } else a

theorem CheckOut_open_step (db : DB) (now i : Int) (a : AttendanceRow)
    (ha : a ∈ db.attendance) (hai : a.attId = i) (hco : a.checkOutTime = none)
    (hi : 0 < i) :
    CheckOut db now ⟨i, none⟩ =
      (.noContent, { db with attendance := db.attendance.map (closeUpd i now) }) := by
  have hex : db.attendance.any (fun x => x.attId == i && x.checkOutTime.isNone) = true :=
    List.any_eq_true.mpr ⟨a, ha, by simp [hai, hco]⟩
  have hfil : a ∈ db.attendance.filter (fun x => x.attId == i && x.checkOutTime.isNone) :=
    List.mem_filter.mpr ⟨ha, by simp [hai, hco]⟩
  have hlen :
      (db.attendance.filter (fun x => x.attId == i && x.checkOutTime.isNone)).length ≠ 0 := by
    intro h0
    rw [List.length_eq_zero] at h0
    rw [h0] at hfil
    exact absurd hfil (List.not_mem_nil a)
  have hineg : ¬ (i ≤ 0) := by omega
  have hlen2 :
      ((db.attendance.filter (fun x => x.attId == i && x.checkOutTime.isNone)).length == 0)
        = false := by
    simpa using hlen
  simp only [CheckOut, resolveTime, hineg, if_false, hex, Bool.not_true,
    Bool.false_eq_true, hlen2, closeUpd]
  rfl

theorem CheckOut_behavior (db : DB) (now now2 i : Int) (a : AttendanceRow)
    (huniq : ∀ x ∈ db.attendance, ∀ y ∈ db.attendance, x.attId = y.attId → x = y)
    (ha : a ∈ db.attendance) (hai : a.attId = i) (hco : a.checkOutTime = none)
    (hi : 0 < i) :
    (CheckOut db now ⟨i, none⟩).1 = .noContent ∧
    (∀ a2 ∈ (CheckOut db now ⟨i, none⟩).2.attendance,
        a2.attId = i → a2.checkOutTime = some now) ∧
    (CheckOut (CheckOut db now ⟨i, none⟩).2 now2 ⟨i, none⟩).1 =
      .conflict "Already checked out" := by
  have hstep := CheckOut_open_step db now i a ha hai hco hi
  have hclosed : ∀ a2 ∈ (db.attendance.map (closeUpd i now)), a2.attId = i →
      a2.checkOutTime = some now := by
    intro a2 ha2 hai2
    obtain ⟨y, hy, rfl⟩ := List.mem_map.mp ha2
    by_cases hq : (y.attId == i && y.checkOutTime.isNone) = true
    · simp [closeUpd, hq]
    · have hyid : y.attId = i := by
        have : closeUpd i now y = y := by simp [closeUpd, hq]
        rw [this] at hai2; exact hai2
      have hyne : y.checkOutTime ≠ none := by
        intro hnone
        exact hq (by simp [hyid, hnone])
      have hya : y = a := huniq y hy a ha (hyid.trans hai.symm)
      exact absurd (hya ▸ hco) hyne
  refine ⟨by rw [hstep], by rw [hstep]; exact hclosed, ?_⟩
  rw [hstep]
  show (CheckOut { db with attendance := db.attendance.map (closeUpd i now) }
        now2 ⟨i, none⟩).1 = _
  have hnoactive :
      ((db.attendance.map (closeUpd i now)).any
        (fun x => x.attId == i && x.checkOutTime.isNone)) = false := by
    rw [List.any_eq_false]
    intro x hx
    by_cases hxi : x.attId = i
    · have := hclosed x hx hxi
      simp [this]
    · simp [hxi]
  have hfind :
      (db.attendance.map (closeUpd i now)).find? (fun x => x.attId == i) =
        (db.attendance.find? (fun x => x.attId == i)).map (closeUpd i now) :=
    find?_map_pred _ _ (fun x => by by_cases hq : (x.attId == i && x.checkOutTime.isNone) = true <;> simp [closeUpd, hq]) _
  have hsome : (db.attendance.find? (fun x => x.attId == i)).isSome := by
    rw [List.find?_isSome]
    exact ⟨a, ha, by simp [hai]⟩
  obtain ⟨y, hy⟩ := Option.isSome_iff_exists.mp hsome
  have hyid : y.attId = i := by simpa using List.find?_some hy
  have hymem : y ∈ db.attendance := List.mem_of_find?_eq_some hy
  have hyclosed : (closeUpd i now y).checkOutTime = some now := by
    have hya : y = a := huniq y hymem a ha (hyid.trans hai.symm)
    simp [closeUpd, hyid, hya ▸ hco]
  have hineg : ¬ (i ≤ 0) := by omega
  simp only [CheckOut, resolveTime, hineg, if_false, hnoactive, Bool.not_false,
    if_true, hfind, hy, Option.map_some, Option.map_some', hyclosed]

/-- C2: checking out an open attendance id succeeds with no-content and
sets its check-out timestamp; a second check-out of the same id yields the
distinct already-checked-out conflict, never not-found; an id with no row
at all yields the not-found error and leaves the store unchanged. -/
theorem checkout_once_then_conflict_never_notfound :
    (∀ (db : DB) (now now2 i : Int) (a : AttendanceRow),
        (∀ x ∈ db.attendance, ∀ y ∈ db.attendance, x.attId = y.attId → x = y) →
        a ∈ db.attendance → a.attId = i → a.checkOutTime = none → 0 < i →
        (CheckOut db now ⟨i, none⟩).1 = .noContent ∧
        (∀ a2 ∈ (CheckOut db now ⟨i, none⟩).2.attendance,
            a2.attId = i → a2.checkOutTime = some now) ∧
        (CheckOut (CheckOut db now ⟨i, none⟩).2 now2 ⟨i, none⟩).1 =
          .conflict "Already checked out") ∧
    (∀ (db : DB) (now i : Int),
        0 < i → (∀ a ∈ db.attendance, a.attId ≠ i) →
        (CheckOut db now ⟨i, none⟩).1 = .notFound "Active attendance record not found" ∧
        (CheckOut db now ⟨i, none⟩).2 = db) := by
  constructor
  · exact fun db now now2 i a h1 h2 h3 h4 h5 => CheckOut_behavior db now now2 i a h1 h2 h3 h4 h5
  · intro db now i hi hnone
    have hnoactive :
        (db.attendance.any (fun x => x.attId == i && x.checkOutTime.isNone)) = false := by
      rw [List.any_eq_false]
      intro x hx
      simp [hnone x hx]
    have hfindnone : db.attendance.find? (fun x => x.attId == i) = none := by
      rw [List.find?_eq_none]
      intro x hx
      simp [hnone x hx]
    have hineg : ¬ (i ≤ 0) := by omega
    simp only [CheckOut, resolveTime, hineg, if_false, hnoactive, Bool.not_false,
      if_true, hfindnone]
    exact ⟨trivial, trivial⟩

def c2DB : DB :=
  { events := [], committees := [], volunteers := [], faculty := []
    assignments := [⟨1, 1, 1, 1, "volunteer", "assigned", none, none, none, none, none⟩]
    attendance := [⟨5, 1, 1000, none, none, none⟩]
    nextVolId := 1, nextAssignId := 2, nextAttId := 6 }

/-- Witness for C2 at a concrete store with one open attendance row. -/
theorem checkout_once_then_conflict_never_notfound_witness :
    (CheckOut c2DB 2000 ⟨5, none⟩).1 = .noContent ∧
    (CheckOut (CheckOut c2DB 2000 ⟨5, none⟩).2 3000 ⟨5, none⟩).1 =
      .conflict "Already checked out" ∧
    (CheckOut c2DB 2000 ⟨9, none⟩).1 = .notFound "Active attendance record not found" := by
  have h1 := checkout_once_then_conflict_never_notfound.1 c2DB 2000 3000 5
    ⟨5, 1, 1000, none, none, none⟩ (by decide) (by decide) (by decide) (by decide) (by decide)
  have h2 := checkout_once_then_conflict_never_notfound.2 c2DB 2000 9 (by decide) (by decide)
  exact ⟨h1.1, h1.2.2, h2.1⟩

/-! ## Query-parameter filter builders (attendance.go lines 901-953, 1004-1081) -/

def clampInt (v lo hi : Int) : Int := if v < lo then lo else if v > hi then hi else v

def maxInt (a b : Int) : Int := if a > b then a else b

structure ShiftCheckinFilters where
  eventId : Option Int
  committeeId : Option Int
  shift : Option String
  date : Int
  limit : Int
  offset : Int
  deriving DecidableEq, Repr

/-- Model of buildShiftCheckinFilters: raw query-parameter strings in,
filter struct out. An id that fails to parse leaves its filter unset; a
date that is present but unparseable is replaced by today, exactly like an
absent date. -/
def buildShiftCheckinFilters (eventIdStr committeeIdStr shiftStr dateStr : String)
    (limit offset now : Int) : ShiftCheckinFilters :=
  { eventId := if eventIdStr = "" then none else parseInt eventIdStr
    committeeId := if committeeIdStr = "" then none else parseInt committeeIdStr
    shift := if shiftStr = "" then none else some shiftStr
    date :=
      if dateStr = "" then truncDay now
      else
        match parseDate dateStr with
        | some d => d * 86400
        | none => truncDay now
    limit := clampInt limit 1 500
    offset := maxInt offset 0 }

structure AssignmentStatusFilters where
  eventId : Option Int
  committeeId : Option Int
  volunteerId : Option Int
  shift : Option String
  assignmentStartDate : Option Int
  assignmentEndDate : Option Int
  attendanceCheckDate : Int
  limit : Int
  offset : Int
  deriving DecidableEq, Repr

/-- Model of buildAssignmentStatusFilters. The attendance_check_date
parameter falls back to today both when absent and when unparseable; the
assignment start and end date filters are simply left unset when
unparseable. -/
def buildAssignmentStatusFilters
    (eventIdStr committeeIdStr volunteerIdStr shiftStr asdStr aedStr acdStr : String)
    (limit offset now : Int) : AssignmentStatusFilters :=
  { eventId := if eventIdStr = "" then none else parseInt eventIdStr
    committeeId := if committeeIdStr = "" then none else parseInt committeeIdStr
    volunteerId := if volunteerIdStr = "" then none else parseInt volunteerIdStr
    shift := if shiftStr = "" then none else some shiftStr
    assignmentStartDate :=
      if asdStr = "" then none
      else
        match parseDate asdStr with
        | some d => some (d * 86400)
        | none => none
    assignmentEndDate :=
      if aedStr = "" then none
      else
        match parseDate aedStr with
        | some d => some (d * 86400)
        | none => none
    attendanceCheckDate :=
      if acdStr = "" then truncDay now
      else
        match parseDate acdStr with
        | some d => d * 86400
        | none => truncDay now
    limit := clampInt limit 1 500
    offset := maxInt offset 0 }

/-! ## CheckoutShift (attendance.go lines 498-567)

The handler first collects the ids of every open attendance row whose
assignment matches the event, committee and shift filter, then closes each
id with its own UPDATE statement, skipping (and only logging) per-row
failures. The failing parameter injects the set of ids whose individual
UPDATE fails with an infrastructure error. -/

/-- Join condition of the id-collecting SELECT for one attendance row:
its assignment exists and matches event, committee and the ILIKE shift
pattern (a NULL shift matches nothing). -/
def shiftMatches (db : DB) (e c : Int) (sh : String) (assignId : Int) : Bool :=
  match db.assignments.find? (fun a => a.aid == assignId) with
  | some va =>
    va.eventId == e && va.committeeId == c &&
      (match va.shift with
       | some s => containsCI s sh
       | none => false)
  | none => false

/-- UPDATE attendance SET check_out_time = now WHERE id = id AND
check_out_time IS NULL. -/
def closeRowById (now : Int) (db : DB) (id : Int) : DB :=
  { db with
    attendance := db.attendance.map (fun a =>
      if a.attId == id && a.checkOutTime.isNone then { a with checkOutTime := some now }
      else a) }

/-- RowsAffected of the closing UPDATE for one id. -/
def openCountById (db : DB) (id : Int) : Nat :=
  (db.attendance.filter (fun a => a.attId == id && a.checkOutTime.isNone)).length

inductive ShiftCheckoutResult where
  | badRequest (msg : String)
  | ok (body : List (String × String))
  deriving DecidableEq, Repr

/-- Per-id closing loop: an id in the failing set is skipped and the sweep
continues, mirroring the log-and-continue error handling of the Go loop. -/
def checkoutShiftLoop (now : Int) (failing : List Int) :
    List Int → Nat × DB → Nat × DB
  | [], acc => acc
  | id :: rest, (cnt, db) =>
    if failing.contains id then checkoutShiftLoop now failing rest (cnt, db)
    else checkoutShiftLoop now failing rest (cnt + openCountById db id, closeRowById now db id)

/-- Body of the CheckoutShift handler after filter validation. -/
def checkoutShiftCore (db : DB) (now e c : Int) (sh : String) (failing : List Int) :
    ShiftCheckoutResult × DB :=
  let ids := (db.attendance.filter (fun a =>
    a.checkOutTime.isNone && shiftMatches db e c sh a.assignmentId)).map (fun a => a.attId)
  if ids.isEmpty then
    (.ok [("message", "No active attendances found for the specified shift.")], db)
  else
    let res := checkoutShiftLoop now failing ids (0, db)
    (.ok [("message",
        toString res.1 ++ " active attendances checked out for shift \x27" ++ sh ++ "\x27.")],
     res.2)

/-- Model of the CheckoutShift handler, query strings in. -/
def CheckoutShift (db : DB) (now : Int) (eventIdStr committeeIdStr shiftStr dateStr : String)
    (limit offset : Int) (failing : List Int) : ShiftCheckoutResult × DB :=
  let f := buildShiftCheckinFilters eventIdStr committeeIdStr shiftStr dateStr limit offset now
  match f.eventId, f.committeeId, f.shift with
  | some e, some c, some sh => checkoutShiftCore db now e c sh failing
  | _, _, _ =>
    (.badRequest "event_id, committee_id, and shift are required to checkout a shift", db)

/-! ## Assignment status projection (attendance.go lines 1083-1206) -/

structure AssignmentStatusRow where
  aid : Int
  eventId : Int
  committeeId : Int
  volunteerId : Int
  role : String
  status : String
  reportingTime : Option Int
  shift : Option String
  startTime : Option Int
  endTime : Option Int
  notes : Option String
  volunteerName : String
  volunteerEmail : Option String
  volunteerCollegeId : Option String
  committeeName : String
  eventName : String
  activeAttendanceId : Option Int
  isCheckedIn : Bool
  deriving DecidableEq, Repr

/-- WHERE clause of the assignments-status query over one assignment. -/
def inAssignmentScope (f : AssignmentStatusFilters) (va : Assignment) : Bool :=
  (match f.eventId with | some e => va.eventId == e | none => true) &&
  (match f.committeeId with | some c => va.committeeId == c | none => true) &&
  (match f.volunteerId with | some v => va.volunteerId == v | none => true) &&
  (match f.shift with
   | some s => (match va.shift with | some t => containsCI t s | none => false)
   | none => true) &&
  (match f.assignmentStartDate with
   | some d => (match va.startTime with | some t => decide (dayOf d ≤ dayOf t) | none => false)
   | none => true) &&
  (match f.assignmentEndDate with
   | some d => (match va.startTime with | some t => decide (dayOf t ≤ dayOf d) | none => false)
   | none => true)

/-- Correlated subquery SELECT att.id ... WHERE att.assignment_id = va.id
AND DATE(att.check_in_time) = checkDate AND att.check_out_time IS NULL
LIMIT 1. -/
def activeAttFor (db : DB) (checkDate : Int) (aid : Int) : Option Int :=
  (db.attendance.find? (fun att =>
    att.assignmentId == aid && dayOf att.checkInTime == dayOf checkDate &&
      att.checkOutTime.isNone)).map (fun att => att.attId)

/-- One output row of the assignments-status projection; the inner joins on
volunteers, committees and events drop assignments with a missing parent. -/
def statusRowOf (db : DB) (checkDate : Int) (va : Assignment) : Option AssignmentStatusRow :=
  match db.volunteers.find? (fun v => v.vid == va.volunteerId),
        db.committees.find? (fun cm => cm.cid == va.committeeId),
        db.events.find? (fun ev => ev.eid == va.eventId) with
  | some v, some cm, some ev =>
    let act := activeAttFor db checkDate va.aid
    some
      { aid := va.aid, eventId := va.eventId, committeeId := va.committeeId
        volunteerId := va.volunteerId, role := va.role, status := va.status
        reportingTime := va.reportingTime, shift := va.shift
        startTime := va.startTime, endTime := va.endTime, notes := va.notes
        volunteerName := v.name, volunteerEmail := v.email
        volunteerCollegeId := v.collegeId, committeeName := cm.name
        eventName := ev.name, activeAttendanceId := act, isCheckedIn := act.isSome }
  | _, _, _ => none

/-- Model of the ListAssignmentsWithCheckinStatus handler. The SQL ORDER BY
only fixes presentation order and is immaterial to the stated properties,
so rows keep table order here; LIMIT and OFFSET are applied as in the
query. -/
def ListAssignmentsWithCheckinStatus (db : DB) (f : AssignmentStatusFilters) :
    List AssignmentStatusRow :=
  let chosen := db.assignments.filter (inAssignmentScope f)
  let paged := (chosen.drop f.offset.toNat).take f.limit.toNat
  paged.filterMap (statusRowOf db f.attendanceCheckDate)

/-! ## Claim C10: unparseable date parameters silently fall back to today -/

/-- C10: for the endpoints built on buildShiftCheckinFilters
(shifts-without-checkin, active-in-shift, checkout-shift) and on
buildAssignmentStatusFilters (assignments-status), a date or
attendance_check_date parameter that is present but not parseable as
YYYY-MM-DD is not rejected: the filters produced are exactly those of a
request with no date parameter at all. -/
theorem invalid_date_param_same_as_absent :
    (∀ (e c s d : String) (l o now : Int), d ≠ "" → parseDate d = none →
        buildShiftCheckinFilters e c s d l o now =
          buildShiftCheckinFilters e c s "" l o now) ∧
    (∀ (e c v s asd aed acd : String) (l o now : Int), acd ≠ "" → parseDate acd = none →
        buildAssignmentStatusFilters e c v s asd aed acd l o now =
          buildAssignmentStatusFilters e c v s asd aed "" l o now) := by
  constructor
  · intro e c s d l o now hne hp
    simp [buildShiftCheckinFilters, hne, hp]
  · intro e c v s asd aed acd l o now hne hp
    simp [buildAssignmentStatusFilters, hne, hp]

/-- Witness for C10 with the concrete unparseable date 2025-99-99. -/
theorem invalid_date_param_same_as_absent_witness :
    buildShiftCheckinFilters "1" "2" "Morning" "2025-99-99" 100 0 1000 =
      buildShiftCheckinFilters "1" "2" "Morning" "" 100 0 1000 ∧
    buildAssignmentStatusFilters "1" "2" "" "" "" "" "2025-99-99" 100 0 1000 =
      buildAssignmentStatusFilters "1" "2" "" "" "" "" "" 100 0 1000 :=
  ⟨invalid_date_param_same_as_absent.1 "1" "2" "Morning" "2025-99-99" 100 0 1000
      (by decide) (by decide),
   invalid_date_param_same_as_absent.2 "1" "2" "" "" "" "" "2025-99-99" 100 0 1000
      (by decide) (by decide)⟩

/-! ## Claim C7: is_checked_in true exactly for an open attendance on the
reference date -/

/-- C7: in the assignments-status projection every returned row has
is_checked_in = true exactly when an attendance row exists for that
assignment with check-in date equal to the reference date and a null
check-out; when is_checked_in is false, no active_attendance_id is
reported, so an assignment whose only attendance on the date is closed
shows false and no id. -/
theorem assignments_status_checked_in_iff_open (db : DB) (f : AssignmentStatusFilters) :
    ∀ row ∈ ListAssignmentsWithCheckinStatus db f,
      (row.isCheckedIn = true ↔
        ∃ att ∈ db.attendance, att.assignmentId = row.aid ∧
          dayOf att.checkInTime = dayOf f.attendanceCheckDate ∧ att.checkOutTime = none) ∧
      (row.isCheckedIn = false → row.activeAttendanceId = none) := by
  intro row hrow
  unfold ListAssignmentsWithCheckinStatus at hrow
  obtain ⟨va, hva, hmk⟩ := List.mem_filterMap.mp hrow
  unfold statusRowOf at hmk
  rcases hfv : db.volunteers.find? (fun v => v.vid == va.volunteerId) with _ | v <;>
    rw [hfv] at hmk <;>
    rcases hfc : db.committees.find? (fun cm => cm.cid == va.committeeId) with _ | cm <;>
    rw [hfc] at hmk <;>
    rcases hfe : db.events.find? (fun ev => ev.eid == va.eventId) with _ | ev <;>
    rw [hfe] at hmk
  case none.none.none => exact Option.noConfusion hmk
  case none.none.some => exact Option.noConfusion hmk
  case none.some.none => exact Option.noConfusion hmk
  case none.some.some => exact Option.noConfusion hmk
  case some.none.none => exact Option.noConfusion hmk
  case some.none.some => exact Option.noConfusion hmk
  case some.some.none => exact Option.noConfusion hmk
  case some.some.some =>
  have hrow2 : row = _ := (Option.some.inj hmk).symm
  subst hrow2
  dsimp only
  constructor
  · constructor
    · intro h
      rcases hfa : db.attendance.find? (fun att =>
          att.assignmentId == va.aid && dayOf att.checkInTime == dayOf f.attendanceCheckDate &&
            att.checkOutTime.isNone) with _ | att
      · rw [activeAttFor, hfa] at h
        exact Bool.noConfusion h
      · have hp := List.find?_some hfa
        have hm := List.mem_of_find?_eq_some hfa
        simp only [Bool.and_eq_true, beq_iff_eq, Option.isNone_iff_eq_none] at hp
        exact ⟨att, hm, hp.1.1, hp.1.2, hp.2⟩
    · rintro ⟨att, hmem, h1, h2, h3⟩
      have hs : (db.attendance.find? (fun att =>
          att.assignmentId == va.aid && dayOf att.checkInTime == dayOf f.attendanceCheckDate &&
            att.checkOutTime.isNone)).isSome := by
        rw [List.find?_isSome]
        exact ⟨att, hmem, by simp [h1, h2, h3]⟩
      rcases hfa : db.attendance.find? (fun att =>
          att.assignmentId == va.aid && dayOf att.checkInTime == dayOf f.attendanceCheckDate &&
            att.checkOutTime.isNone) with _ | att2
      · rw [hfa] at hs
        exact Bool.noConfusion hs
      · rw [activeAttFor, hfa]
        rfl
  · intro hfalse
    rcases hact : activeAttFor db f.attendanceCheckDate va.aid with _ | x
    · rfl
    · rw [hact] at hfalse
      exact Bool.noConfusion hfalse

def c7DB : DB :=
  { events := [⟨1, "E"⟩], committees := [⟨1, "C"⟩]
    volunteers := [⟨1, "V", none, none, none, none⟩], faculty := []
    assignments := [⟨1, 1, 1, 1, "volunteer", "assigned", none, some "Morning", none, none, none⟩]
    attendance := [⟨7, 1, 90000, some 95000, none, none⟩]
    nextVolId := 2, nextAssignId := 2, nextAttId := 8 }

def c7F : AssignmentStatusFilters :=
  { eventId := some 1, committeeId := none, volunteerId := none, shift := none
    assignmentStartDate := none, assignmentEndDate := none
    attendanceCheckDate := 86400, limit := 100, offset := 0 }

def c7Row : AssignmentStatusRow :=
  { aid := 1, eventId := 1, committeeId := 1, volunteerId := 1
    role := "volunteer", status := "assigned", reportingTime := none
    shift := some "Morning", startTime := none, endTime := none, notes := none
    volunteerName := "V", volunteerEmail := none, volunteerCollegeId := none
    committeeName := "C", eventName := "E", activeAttendanceId := none
    isCheckedIn := false }

/-- Witness for C7: a store whose only attendance on the reference day is
already closed yields is_checked_in false and no active attendance id. -/
theorem assignments_status_checked_in_iff_open_witness :
    c7Row.isCheckedIn = false ∧ c7Row.activeAttendanceId = none := by
  have hmem : c7Row ∈ ListAssignmentsWithCheckinStatus c7DB c7F := by decide
  have h := assignments_status_checked_in_iff_open c7DB c7F c7Row hmem
  have hne : ¬ ∃ att ∈ c7DB.attendance, att.assignmentId = c7Row.aid ∧
      dayOf att.checkInTime = dayOf c7F.attendanceCheckDate ∧ att.checkOutTime = none := by
    decide
  have hfalse : c7Row.isCheckedIn = false := by
    cases hb : c7Row.isCheckedIn
    · rfl
    · exact absurd (h.1.mp hb) hne
  exact ⟨hfalse, h.2 hfalse⟩

/-! ## Claim C6: checkout-shift closes exactly the matching open rows -/

theorem map_congr_mem {α β : Type} (f g : α → β) (l : List α)
    (h : ∀ a ∈ l, f a = g a) : l.map f = l.map g := by
  induction l with
  | nil => rfl
  | cons x t ih =>
    simp only [List.map_cons]
    rw [h x (by simp), ih (fun y hy => h y (by simp [hy]))]

/-- Effect on one attendance row of running the closing UPDATE for each id
of a list in order. -/
def applySeq (now : Int) : List Int → AttendanceRow → AttendanceRow
  | [], a => a
  | id :: rest, a =>
    applySeq now rest
      (if a.attId == id && a.checkOutTime.isNone then { a with checkOutTime := some now }
       else a)

theorem applySeq_closed (now : Int) (ids : List Int) (a : AttendanceRow) (t : Int)
    (h : a.checkOutTime = some t) : applySeq now ids a = a := by
  induction ids with
  | nil => rfl
  | cons id rest ih =>
    have hcond : (a.attId == id && a.checkOutTime.isNone) = false := by simp [h]
    simp only [applySeq, hcond, Bool.false_eq_true, if_false]
    exact ih

theorem applySeq_spec (now : Int) (ids : List Int) (a : AttendanceRow) :
    applySeq now ids a =
      if a.attId ∈ ids ∧ a.checkOutTime = none then { a with checkOutTime := some now }
      else a := by
  induction ids with
  | nil => simp [applySeq]
  | cons id rest ih =>
    by_cases hid : a.attId = id
    · by_cases hopen : a.checkOutTime = none
      · have hcond : (a.attId == id && a.checkOutTime.isNone) = true := by simp [hid, hopen]
        simp only [applySeq, hcond, if_true]
        rw [applySeq_closed now rest _ now (by simp)]
        rw [if_pos ⟨List.mem_cons.mpr (Or.inl hid), hopen⟩]
      · have hnn : a.checkOutTime.isNone = false := by
          cases hco : a.checkOutTime
          · exact absurd hco hopen
          · rfl
        have hcond : (a.attId == id && a.checkOutTime.isNone) = false := by simp [hnn]
        simp only [applySeq, hcond, Bool.false_eq_true, if_false]
        rw [ih]
        rw [if_neg (fun hc => hopen hc.2), if_neg (fun hc => hopen hc.2)]
    · have hcond : (a.attId == id && a.checkOutTime.isNone) = false := by simp [hid]
      simp only [applySeq, hcond, Bool.false_eq_true, if_false]
      rw [ih]
      by_cases hc : a.attId ∈ rest ∧ a.checkOutTime = none
      · rw [if_pos hc, if_pos ⟨List.mem_cons.mpr (Or.inr hc.1), hc.2⟩]
      · rw [if_neg hc, if_neg (fun hcc => hc ⟨(List.mem_cons.mp hcc.1).resolve_left hid, hcc.2⟩)]

theorem checkoutShiftLoop_attendance (now : Int) (failing : List Int) :
    ∀ (ids : List Int) (cnt : Nat) (db : DB),
      (checkoutShiftLoop now failing ids (cnt, db)).2.attendance =
        db.attendance.map (applySeq now (ids.filter (fun id => !failing.contains id))) := by
  intro ids
  induction ids with
  | nil =>
    intro cnt db
    simp [checkoutShiftLoop, applySeq]
  | cons id rest ih =>
    intro cnt db
    cases hf : failing.contains id with
    | true =>
      simp only [checkoutShiftLoop, hf, if_true]
      have hmemf : id ∈ failing := List.mem_of_elem_eq_true hf
      have hfil : (id :: rest).filter (fun i => !failing.contains i) =
          rest.filter (fun i => !failing.contains i) := by
        rw [List.filter_cons]
        simp [hmemf]
      rw [hfil]
      exact ih cnt db
    | false =>
      simp only [checkoutShiftLoop, hf, Bool.false_eq_true, if_false]
      rw [ih]
      have hmemf : id ∉ failing := by
        intro hm
        have h2 : failing.contains id = true := List.elem_eq_true_of_mem hm
        rw [h2] at hf
        exact Bool.noConfusion hf
      have hfil : (id :: rest).filter (fun i => !failing.contains i) =
          id :: rest.filter (fun i => !failing.contains i) := by
        rw [List.filter_cons]
        simp [hmemf]
      rw [hfil]
      show (db.attendance.map fun a =>
          if a.attId == id && a.checkOutTime.isNone then { a with checkOutTime := some now }
          else a).map (applySeq now (rest.filter (fun i => !failing.contains i))) = _
      rw [List.map_map]
      exact map_congr_mem _ _ _ (fun a _ => rfl)

/-- Selection of the id-collecting SELECT of CheckoutShift. -/
def activeShiftIds (db : DB) (e c : Int) (sh : String) : List Int :=
  (db.attendance.filter (fun a =>
    a.checkOutTime.isNone && shiftMatches db e c sh a.assignmentId)).map (fun a => a.attId)

theorem activeShiftIds_eq (db : DB) (e c : Int) (sh : String) :
    activeShiftIds db e c sh =
      (db.attendance.filter (fun a =>
        a.checkOutTime.isNone && shiftMatches db e c sh a.assignmentId)).map
          (fun a => a.attId) := rfl

/-- C6: checkout-shift closes exactly the attendance rows that are open and
whose assignment matches the event, committee and case-insensitive shift
substring, stamping each with the current instant; ids whose individual
UPDATE fails are skipped while every other matching row is still closed,
and non-matching rows are untouched. -/
theorem checkout_shift_closes_exactly_matching (db : DB) (now e c : Int) (sh : String)
    (failing : List Int)
    (huniq : ∀ x ∈ db.attendance, ∀ y ∈ db.attendance, x.attId = y.attId → x = y) :
    (checkoutShiftCore db now e c sh failing).2.attendance =
      db.attendance.map (fun a =>
        if a.checkOutTime.isNone && shiftMatches db e c sh a.assignmentId &&
            !failing.contains a.attId then
          { a with checkOutTime := some now }
        else a) := by
  have hmem_ids : ∀ a ∈ db.attendance,
      (a.attId ∈ activeShiftIds db e c sh ↔
        (a.checkOutTime.isNone && shiftMatches db e c sh a.assignmentId) = true) := by
    intro a ha
    constructor
    · intro hin
      obtain ⟨b, hb, hba⟩ := List.mem_map.mp hin
      have hbmem := List.mem_filter.mp hb
      have hba2 : b = a := huniq b hbmem.1 a ha hba
      exact hba2 ▸ hbmem.2
    · intro hq
      exact List.mem_map.mpr ⟨a, List.mem_filter.mpr ⟨ha, hq⟩, rfl⟩
  unfold checkoutShiftCore
  by_cases hempty : ((db.attendance.filter (fun a =>
      a.checkOutTime.isNone && shiftMatches db e c sh a.assignmentId)).map
        (fun a => a.attId)).isEmpty = true
  · simp only [hempty, if_true]
    have hfil : (db.attendance.filter (fun a =>
        a.checkOutTime.isNone && shiftMatches db e c sh a.assignmentId)) = [] := by
      rcases hcase : (db.attendance.filter (fun a =>
          a.checkOutTime.isNone && shiftMatches db e c sh a.assignmentId)) with _ | ⟨x, xs⟩
      · exact hcase
      · rw [hcase] at hempty
        exact absurd hempty (by simp [List.isEmpty])
    symm
    apply map_eq_self_of_fix
    intro a ha
    have hq : (a.checkOutTime.isNone && shiftMatches db e c sh a.assignmentId) = false := by
      cases hqq : (a.checkOutTime.isNone && shiftMatches db e c sh a.assignmentId) with
      | false => rfl
      | true =>
        have : a ∈ (db.attendance.filter (fun a =>
            a.checkOutTime.isNone && shiftMatches db e c sh a.assignmentId)) :=
          List.mem_filter.mpr ⟨ha, hqq⟩
        rw [hfil] at this
        exact absurd this (List.not_mem_nil a)
    simp [hq]
  · simp only [hempty, Bool.false_eq_true, if_false]
    rw [checkoutShiftLoop_attendance]
    apply map_congr_mem
    intro a ha
    rw [applySeq_spec]
    by_cases hq : (a.checkOutTime.isNone && shiftMatches db e c sh a.assignmentId) = true
    · by_cases hfa : failing.contains a.attId = true
      · have hnot : ¬ (a.attId ∈ ((db.attendance.filter (fun a =>
            a.checkOutTime.isNone && shiftMatches db e c sh a.assignmentId)).map
              (fun a => a.attId)).filter (fun i => !failing.contains i) ∧
            a.checkOutTime = none) := by
          rintro ⟨hin, _⟩
          have := (List.mem_filter.mp hin).2
          rw [hfa] at this
          exact absurd this (by simp)
        rw [if_neg hnot]
        have hmemf : a.attId ∈ failing := List.mem_of_elem_eq_true hfa
        simp [hq, hmemf]
      · have hnotmemf : a.attId ∉ failing := fun hm =>
          hfa (List.elem_eq_true_of_mem hm)
        have hin : a.attId ∈ ((db.attendance.filter (fun a =>
            a.checkOutTime.isNone && shiftMatches db e c sh a.assignmentId)).map
              (fun a => a.attId)).filter (fun i => !failing.contains i) := by
          apply List.mem_filter.mpr
          refine ⟨(hmem_ids a ha).mpr hq, by simp [hnotmemf]⟩
        have hopen : a.checkOutTime = none := by
          have := hq
          rw [Bool.and_eq_true] at this
          exact Option.isNone_iff_eq_none.mp this.1
        rw [if_pos ⟨hin, hopen⟩]
        simp [hq, hnotmemf]
    · have hnot : ¬ (a.attId ∈ ((db.attendance.filter (fun a =>
          a.checkOutTime.isNone && shiftMatches db e c sh a.assignmentId)).map
            (fun a => a.attId)).filter (fun i => !failing.contains i) ∧
          a.checkOutTime = none) := by
        rintro ⟨hin, _⟩
        have hin2 := (List.mem_filter.mp hin).1
        exact hq ((hmem_ids a ha).mp hin2)
      rw [if_neg hnot]
      simp [hq]

def c6DB : DB :=
  { events := [⟨1, "E"⟩], committees := [⟨1, "C"⟩]
    volunteers := [⟨1, "V", none, none, none, none⟩, ⟨2, "W", none, none, none, none⟩]
    faculty := []
    assignments :=
      [⟨1, 1, 1, 1, "volunteer", "assigned", none, some "Morning", none, none, none⟩,
       ⟨2, 1, 1, 2, "volunteer", "assigned", none, some "Evening", none, none, none⟩]
    attendance :=
      [⟨10, 1, 1000, none, none, none⟩, ⟨11, 2, 1100, none, none, none⟩]
    nextVolId := 3, nextAssignId := 3, nextAttId := 12 }

/-- Witness for C6: with open attendance for a Morning and an Evening
assignment in the same committee, the Morning sweep closes the Morning row
at the current instant and leaves the Evening row open. -/
theorem checkout_shift_closes_exactly_matching_witness :
    (checkoutShiftCore c6DB 5000 1 1 "Morning" []).2.attendance =
      [⟨10, 1, 1000, some 5000, none, none⟩, ⟨11, 2, 1100, none, none, none⟩] := by
  have h := checkout_shift_closes_exactly_matching c6DB 5000 1 1 "Morning" [] (by decide)
  rw [h]
  decide

/-! ## Claim C8: the checkout-shift response body -/

def c8Body : List (String × String) :=
  [("message", "1 active attendances checked out for shift \x27Morning\x27.")]

/-- C8 counterexample: the claim states a successful checkout-shift
response carries both a message field and a closed_count field; at this
concrete store the handler succeeds and its body carries only the message,
with the count embedded in the message text and no closed_count key. -/
theorem checkout_shift_response_lacks_closed_count :
    (checkoutShiftCore c6DB 5000 1 1 "Morning" []).1 = .ok c8Body ∧
    c8Body.lookup "closed_count" = none ∧
    (c8Body.lookup "message").isSome = true := by
  decide

/-- C8 amended: every checkout-shift success response consists of a single
message field, whose text embeds the closed count on the nonempty path;
no closed_count field is ever present. -/
theorem checkout_shift_response_message_only (db : DB) (now e c : Int) (sh : String)
    (failing : List Int) :
    ∃ body, (checkoutShiftCore db now e c sh failing).1 = .ok body ∧
      (body.lookup "message").isSome = true ∧
      body.lookup "closed_count" = none ∧
      (¬ (activeShiftIds db e c sh).isEmpty = true →
        ∃ k : Nat, body = [("message",
          toString k ++ " active attendances checked out for shift \x27" ++ sh ++ "\x27.")]) := by
  unfold checkoutShiftCore
  by_cases hempty : ((db.attendance.filter (fun a =>
      a.checkOutTime.isNone && shiftMatches db e c sh a.assignmentId)).map
        (fun a => a.attId)).isEmpty = true
  · rw [if_pos hempty]
    exact ⟨_, rfl, rfl, rfl, fun hne => absurd hempty hne⟩
  · rw [if_neg hempty]
    exact ⟨_, rfl, rfl, rfl, fun _ => ⟨_, rfl⟩⟩

/-! ## Roster importer (handlers/volunteers/volunteers.go, BulkUpload)

The CSV is modelled at the record level: a header row and a list of data
rows, each a list of cell strings, as produced by the csv reader. The Go
map built by createIndexer is modelled as a function from header name to
column index with later insertions overwriting earlier ones. -/

def strUpdate (m : String → Option Nat) (k : String) (v : Nat) : String → Option Nat :=
  fun q => if q = k then some v else m q

/-- Loop body of createIndexer: each header contributes its trimmed form
and the lowercased trimmed form, both mapping to its column index. -/
def createIdxAux : Nat → List String → (String → Option Nat) → String → Option Nat
  | _, [], m => m
  | i, h :: t, m =>
    let clean := trimSpace h
    createIdxAux (i + 1) t (strUpdate (strUpdate m clean i) (toLowerStr clean) i)

def createIndexer (headers : List String) : String → Option Nat :=
  createIdxAux 0 headers (fun _ => none)

/-- Model of the get helper: exact lookup of the key in the index map,
returning the cell when the index is in range and the empty string
otherwise. -/
def get (rec : List String) (idx : String → Option Nat) (key : String) : String :=
  match idx key with
  | some i => if h : i < rec.length then rec.get ⟨i, h⟩ else ""
  | none => ""

def nullable (s : String) : Option String := if s = "" then none else some s

def defaultIfEmpty (s dflt : String) : String := if s = "" then dflt else s

/-- Model of strings.Join with separator comma-space. -/
def joinComma : List String → String
  | [] => ""
  | [x] => x
  | x :: rest => x ++ ", " ++ joinComma rest

/-- Row-level fields extracted from one CSV record. -/
structure RowFields where
  name : String
  email : Option String
  phone : Option String
  dept : Option String
  collegeId : Option String
  shift : Option String
  notes : Option String
  role : String
  status : String
  reportingTime : Option Int
  startTime : Option Int
  endTime : Option Int
  deriving DecidableEq, Repr

inductive ParsedRow where
  | bad (msg : String)
  | good (r : RowFields)
  deriving DecidableEq, Repr

/-- Optional timestamp cell: empty means absent, nonempty must parse. -/
def parseOptTime (s : String) : Option (Option Int) :=
  if s = "" then some none else (parseRFC3339 s).map some

/-- Field extraction and validation for one record, in the order of the Go
loop body: missing name first, then the three RFC3339 timestamps. -/
def parseRow (idx : String → Option Nat) (rec : List String) : ParsedRow :=
  let name := trimSpace (get rec idx "name")
  if name = "" then .bad "missing name"
  else
    let email := nullable (trimSpace (get rec idx "email"))
    let phone := nullable (trimSpace (get rec idx "phone"))
    let dept := nullable (trimSpace (get rec idx "dept"))
    let collegeId := nullable (trimSpace (get rec idx "Roll No"))
    let shift := nullable (trimSpace (get rec idx "shift"))
    let groupNo := trimSpace (get rec idx "Group No")
    let facultyCoordinator := trimSpace (get rec idx "Faculty")
    let notesArr :=
      (if groupNo = "" then [] else ["Group No: " ++ groupNo]) ++
      (if facultyCoordinator = "" then [] else ["Faculty: " ++ facultyCoordinator])
    let notes := match notesArr with
      | [] => none
      | arr => some (joinComma arr)
    let assignRole := toLowerStr (defaultIfEmpty (trimSpace (get rec idx "role")) "volunteer")
    let assignStatus := toLowerStr (defaultIfEmpty (trimSpace (get rec idx "status")) "assigned")
    match parseOptTime (trimSpace (get rec idx "reporting_time_iso")) with
    | none => .bad "bad reporting_time_iso (RFC3339)"
    | some rt =>
      match parseOptTime (trimSpace (get rec idx "start_time_iso")) with
      | none => .bad "bad start_time_iso (RFC3339)"
      | some stt =>
        match parseOptTime (trimSpace (get rec idx "end_time_iso")) with
        | none => .bad "bad end_time_iso (RFC3339)"
        | some ett =>
          .good ⟨name, email, phone, dept, collegeId, shift, notes,
                 assignRole, assignStatus, rt, stt, ett⟩

/-- SELECT id FROM volunteers WHERE lower(email) = dollar1: only the stored
side is lowercased, the parameter is compared verbatim. -/
def findVolByEmail (vols : List Volunteer) (em : String) : Option Volunteer :=
  vols.find? (fun v =>
    match v.email with
    | some x => toLowerStr x == em
    | none => false)

/-- SELECT id FROM volunteers WHERE college_id = dollar1. -/
def findVolByCollege (vols : List Volunteer) (cid : String) : Option Volunteer :=
  vols.find? (fun v => v.collegeId == some cid)

/-- SELECT 1 FROM faculty WHERE lower(email) = dollar1. -/
def facultyEmailExists (fac : List Faculty) (em : String) : Bool :=
  fac.any (fun f =>
    match f.email with
    | some x => toLowerStr x == em
    | none => false)

/-- Valid values of the assignment_role enum in the schema; an invalid cast
makes the upsert statement fail as a row error. -/
def validEnumRole (r : String) : Bool := r == "volunteer" || r == "lead" || r == "support"

def validEnumStatus (s : String) : Bool := s == "assigned" || s == "standby" || s == "cancelled"

structure BulkState where
  db : DB
  errors : List (Nat × String)
  createdVols : Nat
  createdAssigns : Nat
  updatedAssigns : Nat
  deriving DecidableEq, Repr

/-- Boolean key predicate of the unique (event, committee, volunteer)
assignment constraint. -/
def keyPred (e c vid : Int) (a : Assignment) : Bool :=
  a.eventId == e && a.committeeId == c && a.volunteerId == vid

def findAssignKey (assigns : List Assignment) (e c vid : Int) : Option Assignment :=
  assigns.find? (keyPred e c vid)

/-- Field overwrite applied by the ON CONFLICT DO UPDATE clause (identical
for the lead and the non-lead branch of the Go code). -/
def setAssignFields (r : RowFields) (a : Assignment) : Assignment :=
  { a with
    role := r.role
    status := r.status
    reportingTime := r.reportingTime
    shift := r.shift
    startTime := r.startTime
    endTime := r.endTime
    notes := r.notes }

/-- Upsert of the (event, committee, volunteer) assignment plus the counter
bookkeeping driven by the preceding existence check. -/
def upsertAssignment (e c : Int) (line : Nat) (vid : Int) (r : RowFields)
    (st : BulkState) : BulkState :=
  if !(validEnumRole r.role && validEnumStatus r.status) then
    { st with errors := st.errors ++ [(line, "insert/update assignment: invalid enum value")] }
  else
    match findAssignKey st.db.assignments e c vid with
    | some _ =>
      { st with
        db := { st.db with
          assignments := st.db.assignments.map (fun a =>
            if keyPred e c vid a = true then setAssignFields r a else a) }
        updatedAssigns := st.updatedAssigns + 1 }
    | none =>
      { st with
        db := { st.db with
          assignments := st.db.assignments ++
            [⟨st.db.nextAssignId, e, c, vid, r.role, r.status, r.reportingTime,
              r.shift, r.startTime, r.endTime, r.notes⟩]
          nextAssignId := st.db.nextAssignId + 1 }
        createdAssigns := st.createdAssigns + 1 }

/-- INSERT INTO volunteers(name, email, phone, dept, college_id, role). -/
def insertVolunteer (st : BulkState) (r : RowFields) : BulkState :=
  { st with
    db := { st.db with
      volunteers := st.db.volunteers ++
        [⟨st.db.nextVolId, r.name, r.email, r.phone, r.dept, r.collegeId⟩]
      nextVolId := st.db.nextVolId + 1 }
    createdVols := st.createdVols + 1 }

/-- One iteration of the BulkUpload row loop: parse, resolve identity
(email first, then college id, then new with the faculty collision check),
then upsert the assignment. -/
def processRow (e c : Int) (idx : String → Option Nat) (st : BulkState) (line : Nat)
    (rec : List String) : BulkState :=
  match parseRow idx rec with
  | .bad msg => { st with errors := st.errors ++ [(line, msg)] }
  | .good r =>
    let byEmail := match r.email with
      | some em => findVolByEmail st.db.volunteers em
      | none => none
    let found := match byEmail with
      | some v => some v.vid
      | none =>
        match r.collegeId with
        | some cid => (findVolByCollege st.db.volunteers cid).map (fun v => v.vid)
        | none => none
    match found with
    | some vid => upsertAssignment e c line vid r st
    | none =>
      match r.email with
      | some em =>
        if facultyEmailExists st.db.faculty em then
          { st with errors := st.errors ++
              [(line, "email \x27" ++ em ++ "\x27 is already registered as a faculty member")] }
        else upsertAssignment e c line st.db.nextVolId r (insertVolunteer st r)
      | none => upsertAssignment e c line st.db.nextVolId r (insertVolunteer st r)

/-- Row loop of BulkUpload: the line counter starts at 1 for the header and
is incremented before each record is processed. -/
def runRows (e c : Int) (idx : String → Option Nat) :
    BulkState → Nat → List (List String) → BulkState
  | st, _, [] => st
  | st, line, rec :: rest => runRows e c idx (processRow e c idx st (line + 1) rec) (line + 1) rest

structure BulkResponse where
  createdVolunteers : Nat
  createdAssignments : Nat
  updatedAssignments : Nat
  errors : List (Nat × String)
  deriving DecidableEq, Repr

instance : DecidableEq (Except String BulkResponse) := fun a b =>
  match a, b with
  | .ok x, .ok y =>
    if h : x = y then isTrue (by rw [h]) else isFalse (by intro hc; cases hc; exact h rfl)
  | .error x, .error y =>
    if h : x = y then isTrue (by rw [h]) else isFalse (by intro hc; cases hc; exact h rfl)
  | .ok _, .error _ => isFalse (by intro hc; cases hc)
  | .error _, .ok _ => isFalse (by intro hc; cases hc)

/-- Model of the BulkUpload handler. The whole row loop runs inside one
transaction held by the assumed store: when the final commit succeeds the
accumulated state is installed, and when it fails with an infrastructure
error the original store is kept and a fatal error is returned. -/
def BulkUpload (eventId committeeId : Int) (header : List String)
    (records : List (List String)) (db : DB) (commitOk : Bool) :
    Except String BulkResponse × DB :=
  let idx := createIndexer header
  let fin := runRows eventId committeeId idx ⟨db, [], 0, 0, 0⟩ 1 records
  if commitOk then
    (.ok ⟨fin.createdVols, fin.createdAssigns, fin.updatedAssigns, fin.errors⟩, fin.db)
  else (.error "commit failed", db)

/-! ## Claim C9: header-name matching in the bulk importer -/

theorem strUpdate_eq (m : String → Option Nat) (k : String) (v : Nat) (q : String) :
    strUpdate m k v q = if q = k then some v else m q := rfl

theorem createIdxAux_isSome_mono (hs : List String) :
    ∀ (i : Nat) (m : String → Option Nat) (key : String),
      (m key).isSome = true → ((createIdxAux i hs m) key).isSome = true := by
  induction hs with
  | nil => intro i m key h; exact h
  | cons hd t ih =>
    intro i m key h
    apply ih
    rw [strUpdate_eq, strUpdate_eq]
    by_cases h1 : key = toLowerStr (trimSpace hd)
    · rw [if_pos h1]; rfl
    · rw [if_neg h1]
      by_cases h2 : key = trimSpace hd
      · rw [if_pos h2]; rfl
      · rw [if_neg h2]; exact h

theorem createIdxAux_isSome_of_match (hs : List String) :
    ∀ (i : Nat) (m : String → Option Nat) (key : String),
      (∃ h ∈ hs, trimSpace h = key ∨ toLowerStr (trimSpace h) = key) →
      ((createIdxAux i hs m) key).isSome = true := by
  induction hs with
  | nil =>
    intro i m key h
    obtain ⟨x, hx, _⟩ := h
    exact absurd hx (List.not_mem_nil x)
  | cons hd t ih =>
    intro i m key h
    obtain ⟨x, hx, hmatch⟩ := h
    rcases List.mem_cons.mp hx with rfl | hxt
    · show ((createIdxAux (i + 1) t
        (strUpdate (strUpdate m (trimSpace x) i) (toLowerStr (trimSpace x)) i)) key).isSome = true
      apply createIdxAux_isSome_mono
      rw [strUpdate_eq, strUpdate_eq]
      by_cases h1 : key = toLowerStr (trimSpace x)
      · rw [if_pos h1]; rfl
      · rw [if_neg h1]
        rcases hmatch with hm | hm
        · rw [if_pos hm.symm]; rfl
        · exact absurd hm.symm h1
    · exact ih (i + 1) _ key ⟨x, hxt, hmatch⟩

theorem createIdxAux_lookup_cases (hs : List String) :
    ∀ (i : Nat) (m : String → Option Nat) (key : String),
      (createIdxAux i hs m) key = m key ∨
      ∃ p hh, hs[p]? = some hh ∧ (createIdxAux i hs m) key = some (i + p) ∧
        (trimSpace hh = key ∨ toLowerStr (trimSpace hh) = key) := by
  induction hs with
  | nil => intro i m key; exact Or.inl rfl
  | cons hd t ih =>
    intro i m key
    rcases ih (i + 1) (strUpdate (strUpdate m (trimSpace hd) i) (toLowerStr (trimSpace hd)) i)
        key with hcase | ⟨p, hh, hp, heq, hmatch⟩
    · rw [strUpdate_eq, strUpdate_eq] at hcase
      by_cases h1 : key = toLowerStr (trimSpace hd)
      · rw [if_pos h1] at hcase
        refine Or.inr ⟨0, hd, by simp, ?_, Or.inr h1.symm⟩
        rw [show createIdxAux i (hd :: t) m key = (createIdxAux (i + 1) t
          (strUpdate (strUpdate m (trimSpace hd) i) (toLowerStr (trimSpace hd)) i)) key from rfl]
        rw [hcase, Nat.add_zero]
      · rw [if_neg h1] at hcase
        by_cases h2 : key = trimSpace hd
        · rw [if_pos h2] at hcase
          refine Or.inr ⟨0, hd, by simp, ?_, Or.inl h2.symm⟩
          rw [show createIdxAux i (hd :: t) m key = (createIdxAux (i + 1) t
            (strUpdate (strUpdate m (trimSpace hd) i) (toLowerStr (trimSpace hd)) i)) key from rfl]
          rw [hcase, Nat.add_zero]
        · rw [if_neg h2] at hcase
          exact Or.inl hcase
    · refine Or.inr ⟨p + 1, hh, by simpa using hp, ?_, hmatch⟩
      rw [show createIdxAux i (hd :: t) m key = (createIdxAux (i + 1) t
        (strUpdate (strUpdate m (trimSpace hd) i) (toLowerStr (trimSpace hd)) i)) key from rfl]
      rw [heq]
      congr 1
      omega

/-- C9 amended: header names are matched after trimming, but only through
two map entries per column: the exact trimmed header and its lowercased
form. A recognized key is therefore found whenever some header trims
exactly to it or lowercases to it (which gives the claimed case-insensitive
behavior for the all-lowercase keys such as name or email), the found index
designates a column whose header matches in one of those two ways and its
cell value is used; a key is not found when no header trims or lowercases
to it, so the mixed-case keys Roll No, Group No and Faculty are not
recognized from headers in any other casing. -/
theorem header_matching_trim_lower_only :
    (∀ (hs : List String) (key : String),
        (∃ h ∈ hs, trimSpace h = key ∨ toLowerStr (trimSpace h) = key) →
        ∃ j, createIndexer hs key = some j ∧
          ∃ hh, hs[j]? = some hh ∧
            (trimSpace hh = key ∨ toLowerStr (trimSpace hh) = key)) ∧
    (∀ (hs : List String) (key : String),
        (∀ h ∈ hs, trimSpace h ≠ key ∧ toLowerStr (trimSpace h) ≠ key) →
        createIndexer hs key = none) ∧
    (∀ (rec hs : List String) (key : String) (j : Nat),
        createIndexer hs key = some j → ∀ hr : j < rec.length,
        get rec (createIndexer hs) key = rec.get ⟨j, hr⟩) := by
  refine ⟨?_, ?_, ?_⟩
  · intro hs key hmatch
    have hsome := createIdxAux_isSome_of_match hs 0 (fun _ => none) key hmatch
    rcases createIdxAux_lookup_cases hs 0 (fun _ => none) key with hcase |
        ⟨p, hh, hp, heq, hm⟩
    · rw [hcase] at hsome
      exact Bool.noConfusion hsome
    · exact ⟨p, by rw [show createIndexer hs key =
        (createIdxAux 0 hs (fun _ => none)) key from rfl, heq]; rw [Nat.zero_add],
        hh, hp, hm⟩
  · intro hs key hnone
    rcases createIdxAux_lookup_cases hs 0 (fun _ => none) key with hcase |
        ⟨p, hh, hp, heq, hm⟩
    · exact hcase
    · have hhmem : hh ∈ hs := by
        have := List.getElem?_eq_some_iff.mp hp
        obtain ⟨hlt, hget⟩ := this
        exact hget ▸ List.getElem_mem hlt
      exact absurd hm (by
        have := hnone hh hhmem
        rintro (h | h)
        · exact this.1 h
        · exact this.2 h)
  · intro rec hs key j hj hr
    unfold get
    rw [hj]
    show (if h : j < rec.length then rec.get ⟨j, h⟩ else "") = rec.get ⟨j, hr⟩
    rw [dif_pos hr]

/-- C9 counterexample: the header ROLL NO equals the recognized column name
Roll No up to letter case, yet the indexer does not recognize the key
Roll No for it and the cell value is not used. -/
theorem header_roll_no_not_case_insensitive :
    toLowerStr (trimSpace "ROLL NO") = toLowerStr (trimSpace "Roll No") ∧
    createIndexer ["ROLL NO"] "Roll No" = none ∧
    get ["X"] (createIndexer ["ROLL NO"]) "Roll No" = "" := by
  decide

/-- Witness for the amended C9 at concrete headers: the all-lowercase key
name is recognized from the upper-cased header NAME with its value used,
and Roll No is recognized from the exactly-cased header. -/
theorem header_matching_trim_lower_only_witness :
    (∃ j, createIndexer ["NAME"] "name" = some j ∧
      ∃ hh, (["NAME"] : List String)[j]? = some hh ∧
        (trimSpace hh = "name" ∨ toLowerStr (trimSpace hh) = "name")) ∧
    createIndexer ["Phone"] "Roll No" = none ∧
    get ["X"] (createIndexer ["Roll No"]) "Roll No" = "X" := by
  refine ⟨header_matching_trim_lower_only.1 ["NAME"] "name"
      ⟨"NAME", by decide, by decide⟩, ?_, ?_⟩
  · exact header_matching_trim_lower_only.2.1 ["Phone"] "Roll No" (by decide)
  · have h := header_matching_trim_lower_only.2.2 ["X"] ["Roll No"] "Roll No" 0
      (by decide) (by decide)
    rw [h]
    rfl

/-! ## Claim C5: identity resolution and case-insensitive email matching -/

def c5DB : DB :=
  { events := [⟨1, "E"⟩], committees := [⟨1, "C"⟩]
    volunteers := [⟨1, "Bob", some "bob@x.com", none, none, none⟩]
    faculty := [], assignments := [], attendance := []
    nextVolId := 2, nextAssignId := 1, nextAttId := 1 }

/-- C5: the claim states step one of identity resolution is an exact
case-insensitive match of the row email against existing volunteer emails.
The SQL only lowercases the stored side (lower(email) = parameter), so a
row email that is not already lowercase never matches: with the stored
email bob at x.com, the row email Bob at x.com is case-insensitively equal
yet resolution misses the match, skips to the college and new-volunteer
steps, and creates a duplicate volunteer. The lowercase form of the same
query does match, exhibiting the one-sided lowering. -/
theorem email_resolution_not_case_insensitive :
    toLowerStr "Bob@x.com" = toLowerStr "bob@x.com" ∧
    findVolByEmail c5DB.volunteers "Bob@x.com" = none ∧
    findVolByEmail c5DB.volunteers "bob@x.com" =
      some ⟨1, "Bob", some "bob@x.com", none, none, none⟩ ∧
    (BulkUpload 1 1 ["name", "email"] [["Bob", "Bob@x.com"]] c5DB true).1 =
      .ok ⟨1, 1, 0, []⟩ := by
  decide

/-! ## Claim C4: row errors, counters and batch atomicity -/

def c4DB : DB :=
  { events := [⟨1, "E"⟩], committees := [⟨1, "C"⟩]
    volunteers := [], faculty := [], assignments := [], attendance := []
    nextVolId := 1, nextAssignId := 1, nextAttId := 1 }

/-- Twelve data rows, rows 3 and 8 with whitespace-only names. -/
def c4Records : List (List String) :=
  [["A"], ["B"], [" "], ["C"], ["D"], ["E"], ["F"], [""], ["G"], ["H"], ["I"], ["J"]]

/-- C4: a row with an empty name or a malformed RFC3339 timestamp only
appends an error entry carrying its line number and leaves the state
otherwise untouched, so the loop continues with the next row; a failing
commit returns a fatal error and keeps the original store so that the
effects of the successfully processed rows commit together or not at all;
and the response carries the created-volunteers, created-assignments,
updated-assignments counters and the per-row errors, as on the concrete
batch of ten valid rows and two empty-name rows at lines 4 and 9. -/
theorem bulk_row_errors_and_atomicity :
    (∀ (e c : Int) (idx : String → Option Nat) (st : BulkState) (line : Nat)
        (rec : List String),
        trimSpace (get rec idx "name") = "" →
        processRow e c idx st line rec =
          { st with errors := st.errors ++ [(line, "missing name")] }) ∧
    (∀ (e c : Int) (idx : String → Option Nat) (st : BulkState) (line : Nat)
        (rec : List String),
        trimSpace (get rec idx "name") ≠ "" →
        trimSpace (get rec idx "reporting_time_iso") ≠ "" →
        parseRFC3339 (trimSpace (get rec idx "reporting_time_iso")) = none →
        processRow e c idx st line rec =
          { st with errors := st.errors ++ [(line, "bad reporting_time_iso (RFC3339)")] }) ∧
    (∀ (e c : Int) (header : List String) (records : List (List String)) (db : DB),
        (BulkUpload e c header records db false).2 = db ∧
        (BulkUpload e c header records db false).1 = .error "commit failed") ∧
    (BulkUpload 1 1 ["name"] c4Records c4DB true).1 =
      .ok ⟨10, 10, 0, [(4, "missing name"), (9, "missing name")]⟩ := by
  refine ⟨?_, ?_, ?_, ?_⟩
  · intro e c idx st line rec h
    have hp : parseRow idx rec = .bad "missing name" := by
      unfold parseRow
      rw [if_pos h]
    unfold processRow
    rw [hp]
  · intro e c idx st line rec h1 h2 h3
    have hopt : parseOptTime (trimSpace (get rec idx "reporting_time_iso")) = none := by
      unfold parseOptTime
      rw [if_neg h2, h3]
      rfl
    have hp : parseRow idx rec = .bad "bad reporting_time_iso (RFC3339)" := by
      unfold parseRow
      rw [if_neg h1]
      simp only [hopt]
    unfold processRow
    rw [hp]
  · intro e c header records db
    exact ⟨rfl, rfl⟩
  · decide

/-- Witness for C4 at concrete rows and states. -/
theorem bulk_row_errors_and_atomicity_witness :
    processRow 1 1 (createIndexer ["name"]) ⟨c4DB, [], 0, 0, 0⟩ 4 [" "] =
      { db := c4DB, errors := [(4, "missing name")], createdVols := 0,
        createdAssigns := 0, updatedAssigns := 0 } ∧
    processRow 1 1 (createIndexer ["name", "reporting_time_iso"]) ⟨c4DB, [], 0, 0, 0⟩ 2
        ["A", "zzz"] =
      { db := c4DB, errors := [(2, "bad reporting_time_iso (RFC3339)")], createdVols := 0,
        createdAssigns := 0, updatedAssigns := 0 } ∧
    (BulkUpload 1 1 ["name"] [["A"]] c4DB false).2 = c4DB := by
  refine ⟨?_, ?_, ?_⟩
  · exact bulk_row_errors_and_atomicity.1 1 1 (createIndexer ["name"])
      ⟨c4DB, [], 0, 0, 0⟩ 4 [" "] (by decide)
  · exact bulk_row_errors_and_atomicity.2.1 1 1 (createIndexer ["name", "reporting_time_iso"])
      ⟨c4DB, [], 0, 0, 0⟩ 2 ["A", "zzz"] (by decide) (by decide) (by decide)
  · exact (bulk_row_errors_and_atomicity.2.2.1 1 1 ["name"] [["A"]] c4DB).1

/-! ## Claim C3: idempotence of re-import -/

/-- C3 counterexample: a CSV whose only row carries a name but no email and
no college id resolves to no existing volunteer on the second run as well,
so the second run reports one created volunteer and one created assignment
instead of zero. -/
theorem reimport_not_idempotent_without_identity :
    (BulkUpload 1 1 ["name"] [["OnlyName"]] c4DB true).1 = .ok ⟨1, 1, 0, []⟩ ∧
    (BulkUpload 1 1 ["name"] [["OnlyName"]]
        (BulkUpload 1 1 ["name"] [["OnlyName"]] c4DB true).2 true).1 =
      .ok ⟨1, 1, 0, []⟩ := by
  decide

/-! ### Wellformedness of the store and the settled-row invariant

The amended idempotence statement is proved for stores whose volunteer ids
are distinct and below the id counter and whose assignments are keyed
uniquely by (event, committee, volunteer), which is what the schema
guarantees through its primary key and unique constraints. -/

def WFVols (db : DB) : Prop :=
  (∀ v ∈ db.volunteers, v.vid < db.nextVolId) ∧
  (∀ v1 ∈ db.volunteers, ∀ v2 ∈ db.volunteers, v1.vid = v2.vid → v1 = v2)

def WFAssigns (db : DB) : Prop :=
  ∀ a1 ∈ db.assignments, ∀ a2 ∈ db.assignments,
    a1.eventId = a2.eventId → a1.committeeId = a2.committeeId →
    a1.volunteerId = a2.volunteerId → a1 = a2

def WFDB (db : DB) : Prop := WFVols db ∧ WFAssigns db

/-- Trimmed Roll No cell of a record. -/
def rowCollege (idx : String → Option Nat) (rec : List String) : String :=
  trimSpace (get rec idx "Roll No")

/-- Rows covered by the amended idempotence claim: the row validates, has
no email, carries a nonempty college id, and uses valid enum values. -/
def GoodRow (idx : String → Option Nat) (rec : List String) : Prop :=
  ∃ r, parseRow idx rec = .good r ∧ r.email = none ∧
    r.collegeId = some (rowCollege idx rec) ∧
    validEnumRole r.role = true ∧ validEnumStatus r.status = true

/-- A row is settled in a store when its college id resolves to a volunteer
whose (event, committee) assignment already carries exactly the row values. -/
def Settled (e c : Int) (r : RowFields) (cid : String) (db : DB) : Prop :=
  ∃ v, findVolByCollege db.volunteers cid = some v ∧
    ∃ a, findAssignKey db.assignments e c v.vid = some a ∧ setAssignFields r a = a

theorem find?_append_none {α : Type} (p : α → Bool) (l1 l2 : List α)
    (h : l1.find? p = none) : (l1 ++ l2).find? p = l2.find? p := by
  induction l1 with
  | nil => rfl
  | cons x t ih =>
    simp only [List.cons_append, List.find?] at h ⊢
    cases hpx : p x
    · rw [hpx] at h
      exact ih h
    · rw [hpx] at h
      exact Option.noConfusion h

/-! ### Evaluation lemmas for processRow and upsertAssignment on good rows -/

theorem processRow_good_found (e c : Int) (idx : String → Option Nat) (st : BulkState)
    (line : Nat) (rec : List String) (r : RowFields) (cid : String) (v : Volunteer)
    (hpr : parseRow idx rec = .good r) (hemail : r.email = none)
    (hcid : r.collegeId = some cid)
    (hfind : findVolByCollege st.db.volunteers cid = some v) :
    processRow e c idx st line rec = upsertAssignment e c line v.vid r st := by
  unfold processRow
  rw [hpr]
  simp only [hemail, hcid, hfind, Option.map_some']

theorem processRow_good_notfound (e c : Int) (idx : String → Option Nat) (st : BulkState)
    (line : Nat) (rec : List String) (r : RowFields) (cid : String)
    (hpr : parseRow idx rec = .good r) (hemail : r.email = none)
    (hcid : r.collegeId = some cid)
    (hfind : findVolByCollege st.db.volunteers cid = none) :
    processRow e c idx st line rec =
      upsertAssignment e c line st.db.nextVolId r (insertVolunteer st r) := by
  unfold processRow
  rw [hpr]
  simp only [hemail, hcid, hfind, Option.map_none']

theorem keyPred_setAssignFields (e c vid : Int) (r : RowFields) (a : Assignment) :
    keyPred e c vid (setAssignFields r a) = keyPred e c vid a := rfl

theorem keyPred_upd (e c vid : Int) (r : RowFields) (a : Assignment) :
    keyPred e c vid (if keyPred e c vid a = true then setAssignFields r a else a) =
      keyPred e c vid a := by
  by_cases h : keyPred e c vid a = true
  · rw [if_pos h, keyPred_setAssignFields]
  · rw [if_neg h]

theorem upsert_update (e c : Int) (line : Nat) (vid : Int) (r : RowFields)
    (st : BulkState) (a : Assignment)
    (hrole : validEnumRole r.role = true) (hstatus : validEnumStatus r.status = true)
    (hfind : findAssignKey st.db.assignments e c vid = some a) :
    upsertAssignment e c line vid r st =
      { st with
        db := { st.db with
          assignments := st.db.assignments.map (fun x =>
            if keyPred e c vid x = true then setAssignFields r x else x) }
        updatedAssigns := st.updatedAssigns + 1 } := by
  unfold upsertAssignment
  simp only [hrole, hstatus, Bool.and_self, Bool.not_true, Bool.false_eq_true, if_false]
  rw [hfind]

theorem upsert_insert (e c : Int) (line : Nat) (vid : Int) (r : RowFields)
    (st : BulkState)
    (hrole : validEnumRole r.role = true) (hstatus : validEnumStatus r.status = true)
    (hfind : findAssignKey st.db.assignments e c vid = none) :
    upsertAssignment e c line vid r st =
      { st with
        db := { st.db with
          assignments := st.db.assignments ++
            [⟨st.db.nextAssignId, e, c, vid, r.role, r.status, r.reportingTime,
              r.shift, r.startTime, r.endTime, r.notes⟩]
          nextAssignId := st.db.nextAssignId + 1 }
        createdAssigns := st.createdAssigns + 1 } := by
  unfold upsertAssignment
  simp only [hrole, hstatus, Bool.and_self, Bool.not_true, Bool.false_eq_true, if_false]
  rw [hfind]

theorem findVolByCollege_some_props (vols : List Volunteer) (cid : String) (v : Volunteer)
    (h : findVolByCollege vols cid = some v) :
    v ∈ vols ∧ v.collegeId = some cid := by
  refine ⟨List.mem_of_find?_eq_some h, ?_⟩
  have := List.find?_some h
  simpa using this

theorem findAssignKey_some_props (assigns : List Assignment) (e c vid : Int) (a : Assignment)
    (h : findAssignKey assigns e c vid = some a) :
    a ∈ assigns ∧ a.eventId = e ∧ a.committeeId = c ∧ a.volunteerId = vid := by
  refine ⟨List.mem_of_find?_eq_some h, ?_⟩
  have := List.find?_some h
  simp only [keyPred, Bool.and_eq_true, beq_iff_eq] at this
  exact ⟨this.1.1, this.1.2, this.2⟩

theorem keyPred_upd_any (e c vid e2 c2 vid2 : Int) (r : RowFields) (x : Assignment) :
    keyPred e2 c2 vid2 (if keyPred e c vid x = true then setAssignFields r x else x) =
      keyPred e2 c2 vid2 x := by
  by_cases h : keyPred e c vid x = true
  · rw [if_pos h]; rfl
  · rw [if_neg h]

theorem insertVolunteer_WF (st : BulkState) (r : RowFields) (hwf : WFDB st.db) :
    WFDB (insertVolunteer st r).db := by
  obtain ⟨⟨hbound, hdist⟩, hassign⟩ := hwf
  refine ⟨⟨?_, ?_⟩, hassign⟩
  · intro v hv
    rcases List.mem_append.mp hv with hv | hv
    · have := hbound v hv
      show v.vid < st.db.nextVolId + 1
      omega
    · rcases List.mem_singleton.mp hv with rfl
      show st.db.nextVolId < st.db.nextVolId + 1
      omega
  · intro v1 h1 v2 h2 heq
    rcases List.mem_append.mp h1 with h1 | h1 <;> rcases List.mem_append.mp h2 with h2 | h2
    · exact hdist v1 h1 v2 h2 heq
    · rcases List.mem_singleton.mp h2 with rfl
      have := hbound v1 h1
      rw [heq] at this
      exact absurd this (by simp)
    · rcases List.mem_singleton.mp h1 with rfl
      have := hbound v2 h2
      rw [← heq] at this
      exact absurd this (by simp)
    · rw [List.mem_singleton.mp h1, List.mem_singleton.mp h2]

theorem upsert_WF (e c : Int) (line : Nat) (vid : Int) (r : RowFields) (st : BulkState)
    (hwf : WFDB st.db) : WFDB (upsertAssignment e c line vid r st).db := by
  obtain ⟨hv, hassign⟩ := hwf
  unfold upsertAssignment
  by_cases henum : (!(validEnumRole r.role && validEnumStatus r.status)) = true
  · rw [if_pos henum]
    exact ⟨hv, hassign⟩
  · rw [if_neg henum]
    rcases hfind : findAssignKey st.db.assignments e c vid with _ | a
    · refine ⟨hv, ?_⟩
      intro a1 h1 a2 h2 he hc hvd
      have hnone := List.find?_eq_none.mp hfind
      rcases List.mem_append.mp h1 with h1 | h1 <;> rcases List.mem_append.mp h2 with h2 | h2
      · exact hassign a1 h1 a2 h2 he hc hvd
      · rcases List.mem_singleton.mp h2 with rfl
        have := hnone a1 h1
        exact absurd (by simp [keyPred, he, hc, hvd]) this
      · rcases List.mem_singleton.mp h1 with rfl
        have := hnone a2 h2
        exact absurd (by simp [keyPred, ← he, ← hc, ← hvd]) this
      · rw [List.mem_singleton.mp h1, List.mem_singleton.mp h2]
    · refine ⟨hv, ?_⟩
      intro a1 h1 a2 h2 he hc hvd
      obtain ⟨x, hx, rfl⟩ := List.mem_map.mp h1
      obtain ⟨y, hy, rfl⟩ := List.mem_map.mp h2
      have hkeep : ∀ z : Assignment,
          (if keyPred e c vid z = true then setAssignFields r z else z).eventId = z.eventId ∧
          (if keyPred e c vid z = true then setAssignFields r z else z).committeeId = z.committeeId ∧
          (if keyPred e c vid z = true then setAssignFields r z else z).volunteerId = z.volunteerId := by
        intro z
        by_cases h : keyPred e c vid z = true
        · rw [if_pos h]; exact ⟨rfl, rfl, rfl⟩
        · rw [if_neg h]; exact ⟨rfl, rfl, rfl⟩
      have hxy : x = y := by
        apply hassign x hx y hy
        · rw [← (hkeep x).1, ← (hkeep y).1]; exact he
        · rw [← (hkeep x).2.1, ← (hkeep y).2.1]; exact hc
        · rw [← (hkeep x).2.2, ← (hkeep y).2.2]; exact hvd
      rw [hxy]

/-- The upserted row of a fresh assignment insert. -/
def newAssign (st : BulkState) (e c vid : Int) (r : RowFields) : Assignment :=
  ⟨st.db.nextAssignId, e, c, vid, r.role, r.status, r.reportingTime,
   r.shift, r.startTime, r.endTime, r.notes⟩

theorem upsert_settles (e c : Int) (line : Nat) (r : RowFields) (st : BulkState)
    (cid : String) (v : Volunteer)
    (hrole : validEnumRole r.role = true) (hstatus : validEnumStatus r.status = true)
    (hfv : findVolByCollege st.db.volunteers cid = some v) :
    Settled e c r cid (upsertAssignment e c line v.vid r st).db := by
  rcases hfa : findAssignKey st.db.assignments e c v.vid with _ | a
  · rw [upsert_insert e c line v.vid r st hrole hstatus hfa]
    refine ⟨v, hfv, newAssign st e c v.vid r, ?_, rfl⟩
    show findAssignKey (st.db.assignments ++ [newAssign st e c v.vid r]) e c v.vid = _
    unfold findAssignKey at hfa ⊢
    rw [find?_append_none _ _ _ hfa]
    simp [keyPred, newAssign]
  · rw [upsert_update e c line v.vid r st a hrole hstatus hfa]
    have hmap := find?_map_pred
      (fun x => if keyPred e c v.vid x = true then setAssignFields r x else x)
      (keyPred e c v.vid) (fun x => keyPred_upd e c v.vid r x) st.db.assignments
    have hpa : keyPred e c v.vid a = true := List.find?_some hfa
    refine ⟨v, hfv, setAssignFields r a, ?_, rfl⟩
    show findAssignKey (st.db.assignments.map _) e c v.vid = _
    unfold findAssignKey at hfa ⊢
    rw [hmap, hfa, Option.map_some', if_pos hpa]

theorem processRow_good_settles (e c : Int) (idx : String → Option Nat) (st : BulkState)
    (line : Nat) (rec : List String) (r : RowFields)
    (hpr : parseRow idx rec = .good r) (hemail : r.email = none)
    (hcid : r.collegeId = some (rowCollege idx rec))
    (hrole : validEnumRole r.role = true) (hstatus : validEnumStatus r.status = true) :
    Settled e c r (rowCollege idx rec) (processRow e c idx st line rec).db := by
  rcases hfv : findVolByCollege st.db.volunteers (rowCollege idx rec) with _ | v
  · rw [processRow_good_notfound e c idx st line rec r (rowCollege idx rec)
      hpr hemail hcid hfv]
    have hfv2 : findVolByCollege (insertVolunteer st r).db.volunteers (rowCollege idx rec) =
        some ⟨st.db.nextVolId, r.name, r.email, r.phone, r.dept, r.collegeId⟩ := by
      show findVolByCollege
        (st.db.volunteers ++ [⟨st.db.nextVolId, r.name, r.email, r.phone, r.dept, r.collegeId⟩])
        (rowCollege idx rec) = _
      unfold findVolByCollege at hfv ⊢
      rw [find?_append_none _ _ _ hfv]
      simp [hcid]
    have := upsert_settles e c line r (insertVolunteer st r) (rowCollege idx rec)
      ⟨st.db.nextVolId, r.name, r.email, r.phone, r.dept, r.collegeId⟩ hrole hstatus hfv2
    exact this
  · rw [processRow_good_found e c idx st line rec r (rowCollege idx rec) v
      hpr hemail hcid hfv]
    exact upsert_settles e c line r st (rowCollege idx rec) v hrole hstatus hfv

theorem upsert_preserves_Settled (e c : Int) (line : Nat) (vid : Int) (r r0 : RowFields)
    (st : BulkState) (cid0 : String) (v0 : Volunteer) (a0 : Assignment)
    (hfv0 : findVolByCollege st.db.volunteers cid0 = some v0)
    (hfa0 : findAssignKey st.db.assignments e c v0.vid = some a0)
    (hset0 : setAssignFields r0 a0 = a0)
    (hvidne : vid ≠ v0.vid) :
    Settled e c r0 cid0 (upsertAssignment e c line vid r st).db := by
  unfold upsertAssignment
  by_cases henum : (!(validEnumRole r.role && validEnumStatus r.status)) = true
  · rw [if_pos henum]
    exact ⟨v0, hfv0, a0, hfa0, hset0⟩
  · rw [if_neg henum]
    rcases hfa : findAssignKey st.db.assignments e c vid with _ | a
    · refine ⟨v0, hfv0, a0, ?_, hset0⟩
      show findAssignKey (st.db.assignments ++ [newAssign st e c vid r]) e c v0.vid = some a0
      unfold findAssignKey at hfa0 ⊢
      exact find?_append_left _ _ _ _ hfa0
    · refine ⟨v0, hfv0, a0, ?_, hset0⟩
      show findAssignKey (st.db.assignments.map
        (fun x => if keyPred e c vid x = true then setAssignFields r x else x)) e c v0.vid = some a0
      have hmap := find?_map_pred
        (fun x => if keyPred e c vid x = true then setAssignFields r x else x)
        (keyPred e c v0.vid) (fun x => keyPred_upd_any e c vid e c v0.vid r x) st.db.assignments
      unfold findAssignKey at hfa0 ⊢
      rw [hmap, hfa0, Option.map_some']
      have ha0 : keyPred e c vid a0 = false := by
        have hprops := findAssignKey_some_props st.db.assignments e c v0.vid a0 hfa0
        simp [keyPred, hprops.2.2.2]
        intro _ _
        exact fun h => hvidne h.symm
      rw [ha0]
      simp

theorem processRow_good_preserves_Settled (e c : Int) (idx : String → Option Nat)
    (st : BulkState) (line : Nat) (rec : List String) (r0 : RowFields) (cid0 : String)
    (hg : GoodRow idx rec)
    (hne : rowCollege idx rec ≠ cid0)
    (hwf : WFDB st.db)
    (hs : Settled e c r0 cid0 st.db) :
    Settled e c r0 cid0 (processRow e c idx st line rec).db := by
  obtain ⟨r, hpr, hemail, hcid, hrole, hstatus⟩ := hg
  obtain ⟨v0, hfv0, a0, hfa0, hset0⟩ := hs
  have hv0props := findVolByCollege_some_props _ _ _ hfv0
  rcases hfv : findVolByCollege st.db.volunteers (rowCollege idx rec) with _ | v
  · rw [processRow_good_notfound e c idx st line rec r (rowCollege idx rec)
      hpr hemail hcid hfv]
    have hfv02 : findVolByCollege (insertVolunteer st r).db.volunteers cid0 = some v0 := by
      show findVolByCollege
        (st.db.volunteers ++ [⟨st.db.nextVolId, r.name, r.email, r.phone, r.dept, r.collegeId⟩])
        cid0 = some v0
      unfold findVolByCollege at hfv0 ⊢
      exact find?_append_left _ _ _ _ hfv0
    have hvidne : st.db.nextVolId ≠ v0.vid := by
      have := hwf.1.1 v0 hv0props.1
      omega
    exact upsert_preserves_Settled e c line st.db.nextVolId r r0 (insertVolunteer st r)
      cid0 v0 a0 hfv02 hfa0 hset0 hvidne
  · rw [processRow_good_found e c idx st line rec r (rowCollege idx rec) v
      hpr hemail hcid hfv]
    have hvprops := findVolByCollege_some_props _ _ _ hfv
    have hvidne : v.vid ≠ v0.vid := by
      intro heq
      have hvv : v = v0 := hwf.1.2 v hvprops.1 v0 hv0props.1 heq
      have : some (rowCollege idx rec) = some cid0 := by
        rw [← hvprops.2, hvv, hv0props.2]
      exact hne (Option.some.inj this)
    exact upsert_preserves_Settled e c line v.vid r r0 st cid0 v0 a0 hfv0 hfa0 hset0 hvidne

theorem processRow_good_WF (e c : Int) (idx : String → Option Nat) (st : BulkState)
    (line : Nat) (rec : List String)
    (hg : GoodRow idx rec) (hwf : WFDB st.db) :
    WFDB (processRow e c idx st line rec).db := by
  obtain ⟨r, hpr, hemail, hcid, hrole, hstatus⟩ := hg
  rcases hfv : findVolByCollege st.db.volunteers (rowCollege idx rec) with _ | v
  · rw [processRow_good_notfound e c idx st line rec r (rowCollege idx rec)
      hpr hemail hcid hfv]
    exact upsert_WF e c line st.db.nextVolId r (insertVolunteer st r)
      (insertVolunteer_WF st r hwf)
  · rw [processRow_good_found e c idx st line rec r (rowCollege idx rec) v
      hpr hemail hcid hfv]
    exact upsert_WF e c line v.vid r st hwf

theorem runRows_preserves_Settled (e c : Int) (idx : String → Option Nat)
    (rows : List (List String)) (r0 : RowFields) (cid0 : String)
    (hall : ∀ rec ∈ rows, GoodRow idx rec)
    (hcols : ∀ rec ∈ rows, rowCollege idx rec ≠ cid0) :
    ∀ (st : BulkState) (line : Nat), WFDB st.db → Settled e c r0 cid0 st.db →
      Settled e c r0 cid0 (runRows e c idx st line rows).db := by
  induction rows with
  | nil => intro st line _ hs; exact hs
  | cons rec rest ih =>
    intro st line hwf hs
    show Settled e c r0 cid0
      (runRows e c idx (processRow e c idx st (line + 1) rec) (line + 1) rest).db
    refine ih (fun r2 h2 => hall r2 (by simp [h2])) (fun r2 h2 => hcols r2 (by simp [h2]))
      _ _ ?_ ?_
    · exact processRow_good_WF e c idx st (line + 1) rec (hall rec (by simp)) hwf
    · exact processRow_good_preserves_Settled e c idx st (line + 1) rec r0 cid0
        (hall rec (by simp)) (hcols rec (by simp)) hwf hs

theorem runRows_WF (e c : Int) (idx : String → Option Nat) (rows : List (List String))
    (hall : ∀ rec ∈ rows, GoodRow idx rec) :
    ∀ (st : BulkState) (line : Nat), WFDB st.db →
      WFDB (runRows e c idx st line rows).db := by
  induction rows with
  | nil => intro st line hwf; exact hwf
  | cons rec rest ih =>
    intro st line hwf
    show WFDB (runRows e c idx (processRow e c idx st (line + 1) rec) (line + 1) rest).db
    exact ih (fun r2 h2 => hall r2 (by simp [h2])) _ _
      (processRow_good_WF e c idx st (line + 1) rec (hall rec (by simp)) hwf)

theorem runRows_settles_all (e c : Int) (idx : String → Option Nat)
    (rows : List (List String))
    (hall : ∀ rec ∈ rows, GoodRow idx rec)
    (hnodup : (rows.map (rowCollege idx)).Nodup) :
    ∀ (st : BulkState) (line : Nat), WFDB st.db →
      ∀ rec ∈ rows, ∀ r, parseRow idx rec = .good r →
        Settled e c r (rowCollege idx rec) (runRows e c idx st line rows).db := by
  induction rows with
  | nil =>
    intro st line _ rec hrec
    exact absurd hrec (List.not_mem_nil rec)
  | cons rec0 rest ih =>
    intro st line hwf rec hrec r hpr
    have hnodup2 : (rest.map (rowCollege idx)).Nodup := (List.nodup_cons.mp hnodup).2
    have hnotin : rowCollege idx rec0 ∉ rest.map (rowCollege idx) :=
      (List.nodup_cons.mp hnodup).1
    rcases List.mem_cons.mp hrec with rfl | hrt
    · obtain ⟨rg, hprg, hemail, hcid, hrole, hstatus⟩ := hall rec (by simp)
      have hrr : rg = r := ParsedRow.good.inj (hprg.symm.trans hpr)
      subst hrr
      have hset := processRow_good_settles e c idx st (line + 1) rec rg
        hprg hemail hcid hrole hstatus
      show Settled e c rg (rowCollege idx rec)
        (runRows e c idx (processRow e c idx st (line + 1) rec) (line + 1) rest).db
      refine runRows_preserves_Settled e c idx rest rg (rowCollege idx rec)
        (fun r2 h2 => hall r2 (by simp [h2])) ?_ _ _
        (processRow_good_WF e c idx st (line + 1) rec (hall rec (by simp)) hwf) hset
      intro r2 h2 heq
      exact hnotin (heq ▸ List.mem_map.mpr ⟨r2, h2, rfl⟩)
    · show Settled e c r (rowCollege idx rec)
        (runRows e c idx (processRow e c idx st (line + 1) rec0) (line + 1) rest).db
      exact ih (fun r2 h2 => hall r2 (by simp [h2])) hnodup2 _ _
        (processRow_good_WF e c idx st (line + 1) rec0 (hall rec0 (by simp)) hwf)
        rec hrt r hpr

theorem runRows_noop (e c : Int) (idx : String → Option Nat) (rows : List (List String))
    (hall : ∀ rec ∈ rows, GoodRow idx rec) :
    ∀ (st : BulkState) (line : Nat), WFDB st.db →
      (∀ rec ∈ rows, ∀ r, parseRow idx rec = .good r →
        Settled e c r (rowCollege idx rec) st.db) →
      runRows e c idx st line rows =
        { st with updatedAssigns := st.updatedAssigns + rows.length } := by
  induction rows with
  | nil =>
    intro st line _ _
    rfl
  | cons rec rest ih =>
    intro st line hwf hsettled
    obtain ⟨r, hpr, hemail, hcid, hrole, hstatus⟩ := hall rec (by simp)
    obtain ⟨v, hfv, a, hfa, hset⟩ := hsettled rec (by simp) r hpr
    have hstep := processRow_good_found e c idx st (line + 1) rec r (rowCollege idx rec) v
      hpr hemail hcid hfv
    have hupd := upsert_update e c (line + 1) v.vid r st a hrole hstatus hfa
    have hmapid : st.db.assignments.map
        (fun x => if keyPred e c v.vid x = true then setAssignFields r x else x) =
        st.db.assignments := by
      apply map_eq_self_of_fix
      intro x hx
      by_cases hk : keyPred e c v.vid x = true
      · rw [if_pos hk]
        have hxprops : (x.eventId = e ∧ x.committeeId = c) ∧ x.volunteerId = v.vid := by
          simpa [keyPred] using hk
        have haprops := findAssignKey_some_props st.db.assignments e c v.vid a hfa
        have hxa : x = a := hwf.2 x hx a haprops.1
          (hxprops.1.1.trans haprops.2.1.symm)
          (hxprops.1.2.trans haprops.2.2.1.symm)
          (hxprops.2.trans haprops.2.2.2.symm)
        rw [hxa, hset]
      · rw [if_neg hk]
    have hstate : processRow e c idx st (line + 1) rec =
        { st with updatedAssigns := st.updatedAssigns + 1 } := by
      rw [hstep, hupd, hmapid]
    show runRows e c idx (processRow e c idx st (line + 1) rec) (line + 1) rest =
      { st with updatedAssigns := st.updatedAssigns + (rec :: rest).length }
    rw [hstate]
    rw [ih (fun r2 h2 => hall r2 (by simp [h2]))
      { st with updatedAssigns := st.updatedAssigns + 1 } (line + 1) hwf
      (fun r2 h2 r3 h3 => hsettled r2 (by simp [h2]) r3 h3)]
    have harith : st.updatedAssigns + 1 + rest.length =
        st.updatedAssigns + (rec :: rest).length := by
      simp [List.length_cons]
      omega
    rw [harith]

/-- C3 amended: the claim fails for rows without a resolvable identity (see
the counterexample), and holds in the amended form: for CSV files whose
data rows all validate, carry no email, carry pairwise-distinct nonempty
college ids and valid role/status values, a second import of the same file
into a wellformed store changes nothing: it reports zero created
volunteers, zero created assignments and no errors, and every stored
assignment (indeed the whole store) is identical after the second run. -/
theorem bulk_reimport_idempotent_for_college_keyed_rows
    (e c : Int) (header : List String) (records : List (List String)) (db : DB)
    (hwf : WFDB db)
    (hall : ∀ rec ∈ records, GoodRow (createIndexer header) rec)
    (hnodup : (records.map (rowCollege (createIndexer header))).Nodup) :
    (BulkUpload e c header records (BulkUpload e c header records db true).2 true).2 =
      (BulkUpload e c header records db true).2 ∧
    (BulkUpload e c header records (BulkUpload e c header records db true).2 true).1 =
      .ok ⟨0, 0, records.length, []⟩ := by
  set idx := createIndexer header with hidx
  have hwf1 : WFDB (runRows e c idx ⟨db, [], 0, 0, 0⟩ 1 records).db :=
    runRows_WF e c idx records hall ⟨db, [], 0, 0, 0⟩ 1 hwf
  have hsettled := runRows_settles_all e c idx records hall hnodup
    ⟨db, [], 0, 0, 0⟩ 1 hwf
  set st2 : BulkState :=
    ⟨(runRows e c idx ⟨db, [], 0, 0, 0⟩ 1 records).db, [], 0, 0, 0⟩ with hst2
  have hnoop : runRows e c idx st2 1 records =
      { st2 with updatedAssigns := st2.updatedAssigns + records.length } :=
    runRows_noop e c idx records hall st2 1 hwf1 hsettled
  constructor
  · show (runRows e c idx st2 1 records).db = st2.db
    rw [hnoop]
  · show Except.ok (BulkResponse.mk (runRows e c idx st2 1 records).createdVols
      (runRows e c idx st2 1 records).createdAssigns
      (runRows e c idx st2 1 records).updatedAssigns
      (runRows e c idx st2 1 records).errors) = Except.ok (BulkResponse.mk 0 0 records.length [])
    rw [hnoop]
    simp

def c3GoodRecords : List (List String) := [["A", "C1"], ["B", "C2"]]

/-- Witness for the amended C3 at a concrete two-row college-keyed file. -/
theorem bulk_reimport_idempotent_for_college_keyed_rows_witness :
    (BulkUpload 1 1 ["name", "Roll No"] c3GoodRecords
        (BulkUpload 1 1 ["name", "Roll No"] c3GoodRecords c4DB true).2 true).2 =
      (BulkUpload 1 1 ["name", "Roll No"] c3GoodRecords c4DB true).2 ∧
    (BulkUpload 1 1 ["name", "Roll No"] c3GoodRecords
        (BulkUpload 1 1 ["name", "Roll No"] c3GoodRecords c4DB true).2 true).1 =
      .ok ⟨0, 0, 2, []⟩ :=
  bulk_reimport_idempotent_for_college_keyed_rows 1 1 ["name", "Roll No"] c3GoodRecords c4DB
    (by constructor
        · constructor
          · intro v hv; exact absurd hv (List.not_mem_nil v)
          · intro v1 h1; exact absurd h1 (List.not_mem_nil v1)
        · intro a1 h1; exact absurd h1 (List.not_mem_nil a1))
    (by intro rec hrec
        rcases List.mem_cons.mp hrec with rfl | hrec2
        · exact ⟨⟨"A", none, none, none, some "C1", none, none, "volunteer", "assigned",
            none, none, none⟩, by decide, rfl, by decide, rfl, rfl⟩
        · rcases List.mem_cons.mp hrec2 with rfl | hrec3
          · exact ⟨⟨"B", none, none, none, some "C2", none, none, "volunteer", "assigned",
              none, none, none⟩, by decide, rfl, by decide, rfl, rfl⟩
          · exact absurd hrec3 (List.not_mem_nil rec))
    (by decide)

end Seva
